import Mathlib

/-!
Verification of the conditional-compilation preprocessor (esbuild-ifdef).

The source is `src/index.ts`.  JavaScript strings are modelled as `List Char`
(`JStr`); the directive matcher (`getToken`, a closure over the configured
regular expression) and the raw expression evaluation (`new Function` + `eval`
over the injected variables) are modelled as parameters `gt` and `ev`, since
the claims quantify over the configured pattern and environment.  Machinery
that performs I/O (file reading, esbuild registration) is out of scope; the
`onLoad` callback body is modelled from the point where the file text is in
hand.

The model additionally threads a ghost log `Acc.evals` recording every
invocation of `evalExpression` (expression text and 0-based line), which is
the observable needed to settle the claims about expressions being or not
being passed to the evaluator.  `Acc.warns` models the `warn` callback
(`warnings.push` in `setup`).
-/

/-- JavaScript string, modelled as a list of characters. -/
abbrev JStr := List Char

/-- Result of `getToken` (src/index.ts lines 48-51): the `token` and
`expression` capture groups (`expression` defaulting to `""`), `match.index`
and `match[0].length`. -/
structure TokenData where
  token : JStr
  expression : JStr
  column : Nat
  length : Nat
deriving DecidableEq

/-- The `location` object attached to errors in the `catch` of `parseIf`
(src/index.ts lines 141-148): `line` is 1-based, `column`/`length` are only
present when the offending line re-matches the directive pattern. -/
structure Loc where
  line : Nat
  lineText : JStr
  column : Option Nat
  length : Option Nat
deriving DecidableEq

/-- A JavaScript error value as used by the plugin: `message`, the optional
`line` property (0-based, set by `evalExpression` and by the `error`
directive), and the optional `location` property (set by `parseIf`'s catch). -/
structure Err where
  message : JStr
  line : Option Nat
  location : Option Loc
deriving DecidableEq

/-- A warning message as pushed by the `warn` callback (src/index.ts lines
120-128): text plus 1-based line, line text, column and length. -/
structure Warning where
  text : JStr
  line : Nat
  lineText : JStr
  column : Nat
  length : Nat
deriving DecidableEq

/-- Threaded accumulators: `warns` models the `warnings` array fed by the
`warn` callback; `evals` is a ghost log of every `evalExpression` call
(expression, 0-based line), used to state evaluation/short-circuit claims. -/
structure AccSt where
  warns : List Warning
  evals : List (JStr × Nat)
deriving DecidableEq

/-- Outcome of one `parseIf` frame: either `{end, remove}` (src/index.ts line
101) or a thrown error. -/
inductive LRes where
  | ok (endIdx : Nat) (remove : List Nat)
  | err (e : Err)
deriving DecidableEq

/-- Result of the modelled `onLoad` callback (src/index.ts lines 181-209):
`contents` is present only on success. -/
structure OnLoadResult where
  contents : Option JStr
  warnings : List Warning
  errors : List Err
deriving DecidableEq

/-- Token literal `"if"`. -/
def tokIf : JStr := ['i', 'f']

/-- Token literal `"endif"`. -/
def tokEndif : JStr := ['e', 'n', 'd', 'i', 'f']

/-- Token literal `"else"`. -/
def tokElse : JStr := ['e', 'l', 's', 'e']

/-- Token literal `"elseif"`. -/
def tokElseif : JStr := ['e', 'l', 's', 'e', 'i', 'f']

/-- Token literal `"elif"`. -/
def tokElif : JStr := ['e', 'l', 'i', 'f']

/-- Token literal `"warning"`. -/
def tokWarning : JStr := ['w', 'a', 'r', 'n', 'i', 'n', 'g']

/-- Token literal `"warn"`. -/
def tokWarn : JStr := ['w', 'a', 'r', 'n']

/-- Token literal `"error"`. -/
def tokError : JStr := ['e', 'r', 'r', 'o', 'r']

/-- Token literal `"err"`. -/
def tokErr : JStr := ['e', 'r', 'r']

/-- JavaScript `lines[i]` for an index known to be in range (modelled totally
with `[]` as the default, which is never hit on the in-range uses). -/
def jsAt (lines : List JStr) (i : Nat) : JStr := lines.getD i []

/-- JavaScript `data.split('\n')`: split on every newline; never returns an
empty list. -/
def splitNl : JStr → List JStr
  | [] => [[]]
  | c :: rest =>
    if c = '\n' then [] :: splitNl rest
    else
      match splitNl rest with
      | [] => [[c]]
      | l :: ls => (c :: l) :: ls

/-- JavaScript `mapped.join('\n')`. -/
def joinNl : List JStr → JStr
  | [] => []
  | [l] => l
  | l :: l2 :: ls => l ++ '\n' :: joinNl (l2 :: ls)

/-- JavaScript `Array.prototype.map` with the element index, as used in
`format` (src/index.ts lines 170-171). -/
def jsMapIdx (f : Nat → JStr → JStr) : Nat → List JStr → List JStr
  | _, [] => []
  | i, a :: as => f i a :: jsMapIdx f (i + 1) as

theorem splitNl_ne_nil (s : JStr) : splitNl s ≠ [] := by
  match s with
  | [] => simp [splitNl]
  | c :: rest =>
    simp only [splitNl]
    split
    · simp
    · split <;> simp

theorem nl_not_mem_splitNl (s : JStr) : ∀ l ∈ splitNl s, '\n' ∉ l := by
  induction s with
  | nil => simp [splitNl]
  | cons c rest ih =>
    simp only [splitNl]
    split
    · intro l hl
      rcases List.mem_cons.mp hl with h | h
      · simp [h]
      · exact ih l h
    · rename_i hc
      split
      · rename_i heq
        exact absurd heq (splitNl_ne_nil rest)
      · rename_i l0 ls0 heq
        intro l hl
        rcases List.mem_cons.mp hl with h | h
        · subst h
          intro hmem
          rcases List.mem_cons.mp hmem with h1 | h1
          · exact hc h1.symm
          · exact ih l0 (heq ▸ List.mem_cons_self l0 ls0) h1
        · exact ih l (heq ▸ List.mem_cons_of_mem l0 h)

theorem splitNl_no_nl (l : JStr) (h : '\n' ∉ l) : splitNl l = [l] := by
  induction l with
  | nil => rfl
  | cons c rest ih =>
    have hc : ¬(c = '\n') := fun hc => h (by simp [hc])
    have hr : '\n' ∉ rest := fun hr => h (List.mem_cons_of_mem c hr)
    simp only [splitNl, if_neg hc, ih hr]

theorem splitNl_append_nl (l t : JStr) (h : '\n' ∉ l) :
    splitNl (l ++ '\n' :: t) = l :: splitNl t := by
  induction l with
  | nil => simp [splitNl]
  | cons c rest ih =>
    have hc : ¬(c = '\n') := fun hc => h (by simp [hc])
    have hr : '\n' ∉ rest := fun hr => h (List.mem_cons_of_mem c hr)
    simp only [List.cons_append, splitNl, List.append_eq, if_neg hc, ih hr]

theorem splitNl_joinNl (L : List JStr) (hn : L ≠ []) (h : ∀ l ∈ L, '\n' ∉ l) :
    splitNl (joinNl L) = L := by
  induction L with
  | nil => exact absurd rfl hn
  | cons l ls ih =>
    match ls with
    | [] => exact splitNl_no_nl l (h l (List.mem_cons_self l []))
    | l2 :: ls2 =>
      have h1 : '\n' ∉ l := h l (List.mem_cons_self l (l2 :: ls2))
      have h2 : ∀ x ∈ l2 :: ls2, '\n' ∉ x := fun x hx => h x (List.mem_cons_of_mem l hx)
      simp only [joinNl, splitNl_append_nl l _ h1, ih (by simp) h2]

theorem length_jsMapIdx (f : Nat → JStr → JStr) (i : Nat) (L : List JStr) :
    (jsMapIdx f i L).length = L.length := by
  induction L generalizing i with
  | nil => rfl
  | cons a as ih => simp [jsMapIdx, ih]

theorem getD_jsMapIdx (f : Nat → JStr → JStr) (i j : Nat) (L : List JStr)
    (h : j < L.length) :
    (jsMapIdx f i L).getD j [] = f (i + j) (L.getD j []) := by
  induction L generalizing i j with
  | nil => simp at h
  | cons a as ih =>
    match j with
    | 0 => simp [jsMapIdx]
    | j + 1 =>
      simp only [jsMapIdx, List.getD_cons_succ]
      rw [ih (i + 1) j (by simpa using h)]
      ring_nf

/-- Outcome of the raw JavaScript evaluation of one expression, as performed
by `evalExpression` (src/index.ts lines 53-67): `ok b` is the boolean
coercion `!!fn(...)` of the expression's value; `conErr` is an exception
thrown while CONSTRUCTING the function (`new Function(...)` on line 54 — e.g.
a SyntaxError when the expression text breaks the generated
`return eval("...")` source, such as an expression containing a double
quote); `runErr` is an exception thrown while CALLING the function inside
the `try`. -/
inductive RawEval where
  | ok (b : Bool)
  | conErr (msg : JStr)
  | runErr (msg : JStr)
deriving DecidableEq

/-- Model of `evalExpression` (src/index.ts lines 53-67).  `new Function` is
called OUTSIDE the `try` block, so a construction failure escapes with no
`line` property; a failure of the call `fn(...)` is caught and the catch
attaches `e.line = line` (both the object and the non-object branches end
with `line` set) before rethrowing. -/
def evalExpression (ev : JStr → RawEval) (expression : JStr)
    (line : Nat) : Except Err Bool :=
  match ev expression with
  | .ok b => .ok b
  | .conErr msg => .error { message := msg, line := none, location := none }
  | .runErr msg => .error { message := msg, line := some line, location := none }

/-- Message of the unterminated-if error (src/index.ts line 137); note the
interpolated `start` is the frame's 0-based opening index. -/
def untermMsg (start : Nat) : JStr :=
  ("Unterminated #if found on line " ++ toString start).toList

/-- The `catch` block of `parseIf` (src/index.ts lines 138-149): compute
`line = err.line ?? start`, re-match that line, and overwrite `err.location`
with `{line: line + 1, lineText}` plus `column`/`length` when the line is a
directive. -/
def enrich (gt : JStr → Option TokenData) (lines : List JStr) (start : Nat)
    (e : Err) : Err :=
  let l := e.line.getD start
  let lineText := jsAt lines l
  let td := gt lineText
  { e with location := some { line := l + 1, lineText := lineText,
                              column := td.map TokenData.column,
                              length := td.map TokenData.length } }

/-- Lift `enrich` to a frame outcome: successful returns pass through, thrown
errors are enriched and rethrown. -/
def enrichR (gt : JStr → Option TokenData) (lines : List JStr) (start : Nat) :
    LRes → LRes
  | .ok e r => .ok e r
  | .err e => .err (enrich gt lines start e)

/-- Invariant carried by the loop of `parseIf`: a successful frame outcome's
`end` index is at least the loop index it was produced from (the `endif` is
found at or after the current line).  Needed to justify termination of the
`i = data.end` jumps. -/
def LInv (i : Nat) : AccSt × LRes → Prop
  | (_, .ok e _) => i ≤ e
  | (_, .err _) => True

theorem LInv.mono {i j : Nat} {r : AccSt × LRes} (h : i ≤ j) (hr : LInv j r) :
    LInv i r := by
  rcases r with ⟨a, (⟨e, rem⟩ | e)⟩
  · simp only [LInv] at *
    omega
  · trivial

/-- Weaken the loop invariant along `i ≤ j`. -/
def wkS {i j : Nat} (h : i ≤ j) (x : { r : AccSt × LRes // LInv j r }) :
    { r : AccSt × LRes // LInv i r } :=
  ⟨x.val, LInv.mono h x.property⟩

/-- The loop of `parseIf` (src/index.ts lines 76-136), one call per iteration
starting at index `i` with the frame state `(start, ignore, prune, done)` and
the accumulated `remove` array.  A nested `if` (a directive at `i ≠ start`)
runs a fresh frame at `i` with `ignore' = prune || ignore` — inlined here
(body of `parseIf` at `start = i`, including its catch's `enrich`) so that the
recursion is well-founded.  Reaching `lines.length` throws the unterminated
error of line 137.  The result carries the `LInv` bound used for termination;
`parseLoop` below projects the value. -/
def parseLoopS (gt : JStr → Option TokenData) (ev : JStr → RawEval)
    (lines : List JStr) (start : Nat) (ignore : Bool) (i : Nat)
    (prune done : Bool) (remove : List Nat) (acc : AccSt) :
    { r : AccSt × LRes // LInv i r } :=
  if h : i < lines.length then
    match gt (jsAt lines i) with
    | none =>
      wkS (Nat.le_succ i)
        (parseLoopS gt ev lines start ignore (i + 1) prune done
          (if prune || ignore then remove ++ [i] else remove) acc)
    | some td =>
      if td.token = tokIf then
        if hne : i ≠ start then
          match parseLoopS gt ev lines i (prune || ignore) i false false [] acc with
          | ⟨(acc1, .ok e rem), hp⟩ =>
            wkS (by simp only [LInv] at hp; omega)
              (parseLoopS gt ev lines start ignore (e + 1) prune done
                (((if prune || ignore then remove ++ [i] else remove) ++ [i]) ++ rem) acc1)
          | ⟨(acc1, .err er), _⟩ =>
            ⟨(acc1, .err (enrich gt lines i er)), trivial⟩
        else
          match evalExpression ev td.expression i with
          | .ok exp =>
            wkS (Nat.le_succ i)
              (parseLoopS gt ev lines start ignore (i + 1) (!exp) exp
                ((if prune || ignore then remove ++ [i] else remove) ++ [i])
                { acc with evals := acc.evals ++ [(td.expression, i)] })
          | .error er =>
            ⟨({ acc with evals := acc.evals ++ [(td.expression, i)] }, .err er), trivial⟩
      else if td.token = tokEndif then
        ⟨(acc, .ok i ((if prune || ignore then remove ++ [i] else remove) ++ [i])), Nat.le_refl i⟩
      else if ignore || (prune && done) then
        wkS (Nat.le_succ i)
          (parseLoopS gt ev lines start ignore (i + 1) prune done
            ((if prune || ignore then remove ++ [i] else remove) ++ [i]) acc)
      else if td.token = tokElse then
        wkS (Nat.le_succ i)
          (parseLoopS gt ev lines start ignore (i + 1) done done
            ((if prune || ignore then remove ++ [i] else remove) ++ [i]) acc)
      else if td.token = tokElseif ∨ td.token = tokElif then
        match evalExpression ev td.expression i with
        | .ok exp =>
          wkS (Nat.le_succ i)
            (parseLoopS gt ev lines start ignore (i + 1) (done || !exp) (done || exp)
              ((if prune || ignore then remove ++ [i] else remove) ++ [i])
              { acc with evals := acc.evals ++ [(td.expression, i)] })
        | .error er =>
          ⟨({ acc with evals := acc.evals ++ [(td.expression, i)] }, .err er), trivial⟩
      else if td.token = tokWarning ∨ td.token = tokWarn then
        if prune then
          wkS (Nat.le_succ i)
            (parseLoopS gt ev lines start ignore (i + 1) prune done
              ((if prune || ignore then remove ++ [i] else remove) ++ [i]) acc)
        else
          wkS (Nat.le_succ i)
            (parseLoopS gt ev lines start ignore (i + 1) prune done
              ((if prune || ignore then remove ++ [i] else remove) ++ [i])
              { acc with warns := acc.warns ++
                  [{ text := td.expression, line := i + 1, lineText := jsAt lines i,
                     column := td.column, length := td.length }] })
      else if td.token = tokError ∨ td.token = tokErr then
        if prune then
          wkS (Nat.le_succ i)
            (parseLoopS gt ev lines start ignore (i + 1) prune done
              ((if prune || ignore then remove ++ [i] else remove) ++ [i]) acc)
        else
          ⟨(acc, .err { message := td.expression, line := some i, location := none }), trivial⟩
      else
        wkS (Nat.le_succ i)
          (parseLoopS gt ev lines start ignore (i + 1) prune done
            ((if prune || ignore then remove ++ [i] else remove) ++ [i]) acc)
  else
    ⟨(acc, .err { message := untermMsg start, line := none, location := none }), trivial⟩
termination_by 2 * (lines.length - i) + (if i = start then 0 else 1)
decreasing_by
  all_goals try simp only [LInv] at hp
  all_goals split_ifs <;> omega

/-- Value of the `parseIf` loop (proof component dropped). -/
def parseLoop (gt : JStr → Option TokenData) (ev : JStr → RawEval)
    (lines : List JStr) (start : Nat) (ignore : Bool) (i : Nat)
    (prune done : Bool) (remove : List Nat) (acc : AccSt) : AccSt × LRes :=
  (parseLoopS gt ev lines start ignore i prune done remove acc).val

/-- Model of `parseIf` (src/index.ts lines 69-151): run the loop from `start`
with fresh state and apply the catch's `enrich` to a thrown error. -/
def parseIf (gt : JStr → Option TokenData) (ev : JStr → RawEval)
    (lines : List JStr) (start : Nat) (ignore : Bool) (acc : AccSt) :
    AccSt × LRes :=
  let r := parseLoop gt ev lines start ignore start false false [] acc
  (r.1, enrichR gt lines start r.2)

theorem parseIf_ok_ge (gt : JStr → Option TokenData) (ev : JStr → RawEval)
    (lines : List JStr) (start : Nat) (ignore : Bool) (acc acc1 : AccSt)
    (e : Nat) (rem : List Nat)
    (hq : parseIf gt ev lines start ignore acc = (acc1, .ok e rem)) : start ≤ e := by
  have hp := (parseLoopS gt ev lines start ignore start false false [] acc).property
  simp only [parseIf, parseLoop] at hq
  rcases hv : (parseLoopS gt ev lines start ignore start false false [] acc).val
    with ⟨a, (⟨e0, rem0⟩ | e0)⟩
  · rw [hv] at hq hp
    simp only [enrichR] at hq
    simp only [LInv] at hp
    cases hq
    exact hp
  · rw [hv] at hq
    simp [enrichR] at hq

/-- The top-level scan of `format` (src/index.ts lines 158-166): walk the
lines, and for each line whose token is `if`, run `parseIf` with
`ignore = false`, merge the returned `remove` indices, and resume after the
returned `end` index.  A thrown error propagates. -/
def formatLoop (gt : JStr → Option TokenData) (ev : JStr → RawEval)
    (lines : List JStr) (i : Nat) (remove : List Nat) (acc : AccSt) :
    AccSt × Except Err (List Nat) :=
  if h : i < lines.length then
    match gt (jsAt lines i) with
    | none => formatLoop gt ev lines (i + 1) remove acc
    | some td =>
      if td.token = tokIf then
        match hq : parseIf gt ev lines i false acc with
        | (acc1, .ok e rem) => formatLoop gt ev lines (e + 1) (remove ++ rem) acc1
        | (acc1, .err er) => (acc1, Except.error er)
      else formatLoop gt ev lines (i + 1) remove acc
  else (acc, Except.ok remove)
termination_by lines.length - i
decreasing_by
  all_goals try omega
  all_goals
    have hge := parseIf_ok_ge gt ev lines i false acc acc1 e rem hq
    omega

/-- Model of `format` (src/index.ts lines 153-174): split on newlines, collect
the suppressed indices from every top-level `if` frame, then render — a
suppressed line becomes `' '` repeated to its length when `fillWithSpaces` is
set, and `"//" + line` otherwise — and rejoin with newlines. -/
def format (gt : JStr → Option TokenData) (ev : JStr → RawEval)
    (fillWithSpaces : Bool) (data : JStr) : AccSt × Except Err JStr :=
  let lines := splitNl data
  match formatLoop gt ev lines 0 [] ⟨[], []⟩ with
  | (acc, .error e) => (acc, .error e)
  | (acc, .ok remove) =>
    let mapped :=
      if fillWithSpaces then
        jsMapIdx (fun i e => if remove.contains i then List.replicate e.length ' ' else e) 0 lines
      else
        jsMapIdx (fun i e => if remove.contains i then '/' :: '/' :: e else e) 0 lines
    (acc, .ok (joinNl mapped))

/-- Model of the `onLoad` callback body from the point where the file text is
read (src/index.ts lines 182-208): on success return the formatted contents
and accumulated warnings; on a thrown error with a `location`, return the
warnings plus that single error and no contents; an error without a
`location` is rethrown. -/
def onLoad (gt : JStr → Option TokenData) (ev : JStr → RawEval)
    (fillWithSpaces : Bool) (text : JStr) : Except Err OnLoadResult :=
  match format gt ev fillWithSpaces text with
  | (acc, .ok formatted) => .ok { contents := some formatted, warnings := acc.warns, errors := [] }
  | (acc, .error e) =>
    match e.location with
    | none => .error e
    | some _ => .ok { contents := none, warnings := acc.warns, errors := [e] }

@[simp] theorem wkS_val {i j : Nat} (h : i ≤ j) (x : { r : AccSt × LRes // LInv j r }) :
    (wkS h x).val = x.val := rfl

theorem parseLoop_unterm (gt : JStr → Option TokenData) (ev : JStr → RawEval)
    (lines : List JStr) (start : Nat) (ignore : Bool) (i : Nat)
    (prune done : Bool) (remove : List Nat) (acc : AccSt)
    (h : ¬(i < lines.length)) :
    parseLoop gt ev lines start ignore i prune done remove acc =
      (acc, .err { message := untermMsg start, line := none, location := none }) := by
  unfold parseLoop
  rw [parseLoopS]
  simp only [dif_neg h]

theorem parseLoop_noToken (gt : JStr → Option TokenData) (ev : JStr → RawEval)
    (lines : List JStr) (start : Nat) (ignore : Bool) (i : Nat)
    (prune done : Bool) (remove : List Nat) (acc : AccSt)
    (h : i < lines.length) (hgt : gt (jsAt lines i) = none) :
    parseLoop gt ev lines start ignore i prune done remove acc =
      parseLoop gt ev lines start ignore (i + 1) prune done
        (if prune || ignore then remove ++ [i] else remove) acc := by
  unfold parseLoop
  conv_lhs => rw [parseLoopS]
  simp only [dif_pos h, hgt, wkS_val]

theorem parseLoop_ifStart_ok (gt : JStr → Option TokenData) (ev : JStr → RawEval)
    (lines : List JStr) (ignore : Bool) (start : Nat)
    (prune done : Bool) (remove : List Nat) (acc : AccSt) (td : TokenData) (b : Bool)
    (h : start < lines.length) (hgt : gt (jsAt lines start) = some td)
    (ht : td.token = tokIf) (hev : evalExpression ev td.expression start = .ok b) :
    parseLoop gt ev lines start ignore start prune done remove acc =
      parseLoop gt ev lines start ignore (start + 1) (!b) b
        ((if prune || ignore then remove ++ [start] else remove) ++ [start])
        { acc with evals := acc.evals ++ [(td.expression, start)] } := by
  unfold parseLoop
  conv_lhs => rw [parseLoopS]
  simp only [dif_pos h, hgt, ht, hev, wkS_val, if_pos rfl]
  simp

theorem parseLoop_ifStart_err (gt : JStr → Option TokenData) (ev : JStr → RawEval)
    (lines : List JStr) (ignore : Bool) (start : Nat)
    (prune done : Bool) (remove : List Nat) (acc : AccSt) (td : TokenData) (er : Err)
    (h : start < lines.length) (hgt : gt (jsAt lines start) = some td)
    (ht : td.token = tokIf) (hev : evalExpression ev td.expression start = .error er) :
    parseLoop gt ev lines start ignore start prune done remove acc =
      ({ acc with evals := acc.evals ++ [(td.expression, start)] }, .err er) := by
  unfold parseLoop
  conv_lhs => rw [parseLoopS]
  simp only [dif_pos h, hgt, ht, hev, wkS_val, if_pos rfl]
  simp

theorem parseLoop_ifNested_ok (gt : JStr → Option TokenData) (ev : JStr → RawEval)
    (lines : List JStr) (start : Nat) (ignore : Bool) (i : Nat)
    (prune done : Bool) (remove : List Nat) (acc acc1 : AccSt) (td : TokenData)
    (e : Nat) (rem : List Nat)
    (h : i < lines.length) (hgt : gt (jsAt lines i) = some td)
    (ht : td.token = tokIf) (hne : i ≠ start)
    (hq : parseIf gt ev lines i (prune || ignore) acc = (acc1, .ok e rem)) :
    parseLoop gt ev lines start ignore i prune done remove acc =
      parseLoop gt ev lines start ignore (e + 1) prune done
        (((if prune || ignore then remove ++ [i] else remove) ++ [i]) ++ rem) acc1 := by
  rcases hS : parseLoopS gt ev lines i (prune || ignore) i false false [] acc
    with ⟨⟨acc0, r0⟩, hp0⟩
  have hq2 : (acc0, enrichR gt lines i r0) = (acc1, LRes.ok e rem) := by
    simpa only [parseIf, parseLoop, hS] using hq
  conv_lhs => unfold parseLoop; rw [parseLoopS]
  simp only [dif_pos h, hgt, ht, if_pos rfl, dif_pos hne, hS]
  rcases r0 with ⟨e0, rem0⟩ | e0
  · simp only [enrichR, Prod.mk.injEq, LRes.ok.injEq] at hq2
    obtain ⟨ha, hb, hc⟩ := hq2
    subst ha hb hc
    simp [parseLoop]
  · simp [enrichR] at hq2

theorem parseLoop_ifNested_err (gt : JStr → Option TokenData) (ev : JStr → RawEval)
    (lines : List JStr) (start : Nat) (ignore : Bool) (i : Nat)
    (prune done : Bool) (remove : List Nat) (acc acc1 : AccSt) (td : TokenData)
    (er : Err)
    (h : i < lines.length) (hgt : gt (jsAt lines i) = some td)
    (ht : td.token = tokIf) (hne : i ≠ start)
    (hq : parseIf gt ev lines i (prune || ignore) acc = (acc1, .err er)) :
    parseLoop gt ev lines start ignore i prune done remove acc = (acc1, .err er) := by
  rcases hS : parseLoopS gt ev lines i (prune || ignore) i false false [] acc
    with ⟨⟨acc0, r0⟩, hp0⟩
  have hq2 : (acc0, enrichR gt lines i r0) = (acc1, LRes.err er) := by
    simpa only [parseIf, parseLoop, hS] using hq
  conv_lhs => unfold parseLoop; rw [parseLoopS]
  simp only [dif_pos h, hgt, ht, if_pos rfl, dif_pos hne, hS]
  rcases r0 with ⟨e0, rem0⟩ | e0
  · simp [enrichR] at hq2
  · simp only [enrichR, Prod.mk.injEq, LRes.err.injEq] at hq2
    obtain ⟨ha, hb⟩ := hq2
    subst ha hb
    simp

theorem parseLoop_endif (gt : JStr → Option TokenData) (ev : JStr → RawEval)
    (lines : List JStr) (start : Nat) (ignore : Bool) (i : Nat)
    (prune done : Bool) (remove : List Nat) (acc : AccSt) (td : TokenData)
    (h : i < lines.length) (hgt : gt (jsAt lines i) = some td)
    (ht : td.token = tokEndif) :
    parseLoop gt ev lines start ignore i prune done remove acc =
      (acc, .ok i ((if prune || ignore then remove ++ [i] else remove) ++ [i])) := by
  unfold parseLoop
  conv_lhs => rw [parseLoopS]
  simp only [dif_pos h, hgt, ht]
  simp [tokIf, tokEndif]

theorem parseLoop_skip (gt : JStr → Option TokenData) (ev : JStr → RawEval)
    (lines : List JStr) (start : Nat) (ignore : Bool) (i : Nat)
    (prune done : Bool) (remove : List Nat) (acc : AccSt) (td : TokenData)
    (h : i < lines.length) (hgt : gt (jsAt lines i) = some td)
    (hni : td.token ≠ tokIf) (hnd : td.token ≠ tokEndif)
    (hskip : (ignore || (prune && done)) = true) :
    parseLoop gt ev lines start ignore i prune done remove acc =
      parseLoop gt ev lines start ignore (i + 1) prune done
        ((if prune || ignore then remove ++ [i] else remove) ++ [i]) acc := by
  unfold parseLoop
  conv_lhs => rw [parseLoopS]
  simp only [dif_pos h, hgt, if_neg hni, if_neg hnd, hskip]
  simp

theorem parseLoop_else (gt : JStr → Option TokenData) (ev : JStr → RawEval)
    (lines : List JStr) (start : Nat) (ignore : Bool) (i : Nat)
    (prune done : Bool) (remove : List Nat) (acc : AccSt) (td : TokenData)
    (h : i < lines.length) (hgt : gt (jsAt lines i) = some td)
    (ht : td.token = tokElse)
    (hskip : (ignore || (prune && done)) = false) :
    parseLoop gt ev lines start ignore i prune done remove acc =
      parseLoop gt ev lines start ignore (i + 1) done done
        ((if prune || ignore then remove ++ [i] else remove) ++ [i]) acc := by
  unfold parseLoop
  conv_lhs => rw [parseLoopS]
  simp only [dif_pos h, hgt, ht, hskip]
  simp [tokIf, tokEndif, tokElse]

theorem parseLoop_elseif_ok (gt : JStr → Option TokenData) (ev : JStr → RawEval)
    (lines : List JStr) (start : Nat) (ignore : Bool) (i : Nat)
    (prune done : Bool) (remove : List Nat) (acc : AccSt) (td : TokenData) (b : Bool)
    (h : i < lines.length) (hgt : gt (jsAt lines i) = some td)
    (ht : td.token = tokElseif ∨ td.token = tokElif)
    (hskip : (ignore || (prune && done)) = false)
    (hev : evalExpression ev td.expression i = .ok b) :
    parseLoop gt ev lines start ignore i prune done remove acc =
      parseLoop gt ev lines start ignore (i + 1) (done || !b) (done || b)
        ((if prune || ignore then remove ++ [i] else remove) ++ [i])
        { acc with evals := acc.evals ++ [(td.expression, i)] } := by
  unfold parseLoop
  conv_lhs => rw [parseLoopS]
  have hni : td.token ≠ tokIf := by
    rcases ht with ht | ht <;> simp [ht, tokIf, tokElseif, tokElif]
  have hnd : td.token ≠ tokEndif := by
    rcases ht with ht | ht <;> simp [ht, tokEndif, tokElseif, tokElif]
  have hns : td.token ≠ tokElse := by
    rcases ht with ht | ht <;> simp [ht, tokElse, tokElseif, tokElif]
  simp only [dif_pos h, hgt, if_neg hni, if_neg hnd, hskip, if_neg hns, if_pos ht,
    hev, wkS_val]
  simp

theorem parseLoop_elseif_err (gt : JStr → Option TokenData) (ev : JStr → RawEval)
    (lines : List JStr) (start : Nat) (ignore : Bool) (i : Nat)
    (prune done : Bool) (remove : List Nat) (acc : AccSt) (td : TokenData) (er : Err)
    (h : i < lines.length) (hgt : gt (jsAt lines i) = some td)
    (ht : td.token = tokElseif ∨ td.token = tokElif)
    (hskip : (ignore || (prune && done)) = false)
    (hev : evalExpression ev td.expression i = .error er) :
    parseLoop gt ev lines start ignore i prune done remove acc =
      ({ acc with evals := acc.evals ++ [(td.expression, i)] }, .err er) := by
  unfold parseLoop
  conv_lhs => rw [parseLoopS]
  have hni : td.token ≠ tokIf := by
    rcases ht with ht | ht <;> simp [ht, tokIf, tokElseif, tokElif]
  have hnd : td.token ≠ tokEndif := by
    rcases ht with ht | ht <;> simp [ht, tokEndif, tokElseif, tokElif]
  have hns : td.token ≠ tokElse := by
    rcases ht with ht | ht <;> simp [ht, tokElse, tokElseif, tokElif]
  simp only [dif_pos h, hgt, if_neg hni, if_neg hnd, hskip, if_neg hns, if_pos ht,
    hev, wkS_val]
  simp

theorem parseLoop_warn_active (gt : JStr → Option TokenData) (ev : JStr → RawEval)
    (lines : List JStr) (start : Nat) (ignore : Bool) (i : Nat)
    (done : Bool) (remove : List Nat) (acc : AccSt) (td : TokenData)
    (h : i < lines.length) (hgt : gt (jsAt lines i) = some td)
    (ht : td.token = tokWarning ∨ td.token = tokWarn)
    (hig : ignore = false) :
    parseLoop gt ev lines start ignore i false done remove acc =
      parseLoop gt ev lines start ignore (i + 1) false done
        ((if false || ignore then remove ++ [i] else remove) ++ [i])
        { acc with warns := acc.warns ++
            [{ text := td.expression, line := i + 1, lineText := jsAt lines i,
               column := td.column, length := td.length }] } := by
  unfold parseLoop
  conv_lhs => rw [parseLoopS]
  have hni : td.token ≠ tokIf := by
    rcases ht with ht | ht <;> simp [ht, tokIf, tokWarning, tokWarn]
  have hnd : td.token ≠ tokEndif := by
    rcases ht with ht | ht <;> simp [ht, tokEndif, tokWarning, tokWarn]
  have hns : td.token ≠ tokElse := by
    rcases ht with ht | ht <;> simp [ht, tokElse, tokWarning, tokWarn]
  have hne : ¬(td.token = tokElseif ∨ td.token = tokElif) := by
    rcases ht with ht | ht <;> simp [ht, tokElseif, tokElif, tokWarning, tokWarn]
  simp only [hig, dif_pos h, hgt, if_neg hni, if_neg hnd, if_neg hns, if_neg hne,
    if_pos ht, wkS_val]
  simp

theorem parseLoop_warn_pruned (gt : JStr → Option TokenData) (ev : JStr → RawEval)
    (lines : List JStr) (start : Nat) (ignore : Bool) (i : Nat)
    (remove : List Nat) (acc : AccSt) (td : TokenData)
    (h : i < lines.length) (hgt : gt (jsAt lines i) = some td)
    (ht : td.token = tokWarning ∨ td.token = tokWarn)
    (hig : ignore = false) :
    parseLoop gt ev lines start ignore i true false remove acc =
      parseLoop gt ev lines start ignore (i + 1) true false
        ((if true || ignore then remove ++ [i] else remove) ++ [i]) acc := by
  unfold parseLoop
  conv_lhs => rw [parseLoopS]
  have hni : td.token ≠ tokIf := by
    rcases ht with ht | ht <;> simp [ht, tokIf, tokWarning, tokWarn]
  have hnd : td.token ≠ tokEndif := by
    rcases ht with ht | ht <;> simp [ht, tokEndif, tokWarning, tokWarn]
  have hns : td.token ≠ tokElse := by
    rcases ht with ht | ht <;> simp [ht, tokElse, tokWarning, tokWarn]
  have hne : ¬(td.token = tokElseif ∨ td.token = tokElif) := by
    rcases ht with ht | ht <;> simp [ht, tokElseif, tokElif, tokWarning, tokWarn]
  simp only [hig, dif_pos h, hgt, if_neg hni, if_neg hnd, if_neg hns, if_neg hne,
    if_pos ht, wkS_val]
  simp

theorem parseLoop_error_active (gt : JStr → Option TokenData) (ev : JStr → RawEval)
    (lines : List JStr) (start : Nat) (ignore : Bool) (i : Nat)
    (done : Bool) (remove : List Nat) (acc : AccSt) (td : TokenData)
    (h : i < lines.length) (hgt : gt (jsAt lines i) = some td)
    (ht : td.token = tokError ∨ td.token = tokErr)
    (hig : ignore = false) :
    parseLoop gt ev lines start ignore i false done remove acc =
      (acc, .err { message := td.expression, line := some i, location := none }) := by
  unfold parseLoop
  conv_lhs => rw [parseLoopS]
  have hni : td.token ≠ tokIf := by
    rcases ht with ht | ht <;> simp [ht, tokIf, tokError, tokErr]
  have hnd : td.token ≠ tokEndif := by
    rcases ht with ht | ht <;> simp [ht, tokEndif, tokError, tokErr]
  have hns : td.token ≠ tokElse := by
    rcases ht with ht | ht <;> simp [ht, tokElse, tokError, tokErr]
  have hne : ¬(td.token = tokElseif ∨ td.token = tokElif) := by
    rcases ht with ht | ht <;> simp [ht, tokElseif, tokElif, tokError, tokErr]
  have hnw : ¬(td.token = tokWarning ∨ td.token = tokWarn) := by
    rcases ht with ht | ht <;> simp [ht, tokWarning, tokWarn, tokError, tokErr]
  simp only [hig, dif_pos h, hgt, if_neg hni, if_neg hnd, if_neg hns, if_neg hne,
    if_neg hnw, if_pos ht, wkS_val]
  simp

theorem parseLoop_error_pruned (gt : JStr → Option TokenData) (ev : JStr → RawEval)
    (lines : List JStr) (start : Nat) (ignore : Bool) (i : Nat)
    (remove : List Nat) (acc : AccSt) (td : TokenData)
    (h : i < lines.length) (hgt : gt (jsAt lines i) = some td)
    (ht : td.token = tokError ∨ td.token = tokErr)
    (hig : ignore = false) :
    parseLoop gt ev lines start ignore i true false remove acc =
      parseLoop gt ev lines start ignore (i + 1) true false
        ((if true || ignore then remove ++ [i] else remove) ++ [i]) acc := by
  unfold parseLoop
  conv_lhs => rw [parseLoopS]
  have hni : td.token ≠ tokIf := by
    rcases ht with ht | ht <;> simp [ht, tokIf, tokError, tokErr]
  have hnd : td.token ≠ tokEndif := by
    rcases ht with ht | ht <;> simp [ht, tokEndif, tokError, tokErr]
  have hns : td.token ≠ tokElse := by
    rcases ht with ht | ht <;> simp [ht, tokElse, tokError, tokErr]
  have hne : ¬(td.token = tokElseif ∨ td.token = tokElif) := by
    rcases ht with ht | ht <;> simp [ht, tokElseif, tokElif, tokError, tokErr]
  have hnw : ¬(td.token = tokWarning ∨ td.token = tokWarn) := by
    rcases ht with ht | ht <;> simp [ht, tokWarning, tokWarn, tokError, tokErr]
  simp only [hig, dif_pos h, hgt, if_neg hni, if_neg hnd, if_neg hns, if_neg hne,
    if_neg hnw, if_pos ht, wkS_val]
  simp

theorem parseLoop_otherTok (gt : JStr → Option TokenData) (ev : JStr → RawEval)
    (lines : List JStr) (start : Nat) (ignore : Bool) (i : Nat)
    (prune done : Bool) (remove : List Nat) (acc : AccSt) (td : TokenData)
    (h : i < lines.length) (hgt : gt (jsAt lines i) = some td)
    (hni : td.token ≠ tokIf) (hnd : td.token ≠ tokEndif)
    (hns : td.token ≠ tokElse)
    (hne : ¬(td.token = tokElseif ∨ td.token = tokElif))
    (hnw : ¬(td.token = tokWarning ∨ td.token = tokWarn))
    (hnr : ¬(td.token = tokError ∨ td.token = tokErr))
    (hskip : (ignore || (prune && done)) = false) :
    parseLoop gt ev lines start ignore i prune done remove acc =
      parseLoop gt ev lines start ignore (i + 1) prune done
        ((if prune || ignore then remove ++ [i] else remove) ++ [i]) acc := by
  unfold parseLoop
  conv_lhs => rw [parseLoopS]
  simp only [dif_pos h, hgt, if_neg hni, if_neg hnd, hskip, if_neg hns, if_neg hne,
    if_neg hnw, if_neg hnr, wkS_val]
  simp

theorem parseIf_eq_loop (gt : JStr → Option TokenData) (ev : JStr → RawEval)
    (lines : List JStr) (start : Nat) (ignore : Bool) (acc : AccSt) :
    parseIf gt ev lines start ignore acc =
      ((parseLoop gt ev lines start ignore start false false [] acc).1,
       enrichR gt lines start (parseLoop gt ev lines start ignore start false false [] acc).2) := rfl

theorem formatLoop_end (gt : JStr → Option TokenData) (ev : JStr → RawEval)
    (lines : List JStr) (i : Nat) (remove : List Nat) (acc : AccSt)
    (h : ¬(i < lines.length)) :
    formatLoop gt ev lines i remove acc = (acc, .ok remove) := by
  rw [formatLoop]
  simp only [dif_neg h]

theorem formatLoop_noToken (gt : JStr → Option TokenData) (ev : JStr → RawEval)
    (lines : List JStr) (i : Nat) (remove : List Nat) (acc : AccSt)
    (h : i < lines.length) (hgt : gt (jsAt lines i) = none) :
    formatLoop gt ev lines i remove acc = formatLoop gt ev lines (i + 1) remove acc := by
  conv_lhs => rw [formatLoop]
  simp only [dif_pos h, hgt]

theorem formatLoop_notIf (gt : JStr → Option TokenData) (ev : JStr → RawEval)
    (lines : List JStr) (i : Nat) (remove : List Nat) (acc : AccSt) (td : TokenData)
    (h : i < lines.length) (hgt : gt (jsAt lines i) = some td)
    (hni : td.token ≠ tokIf) :
    formatLoop gt ev lines i remove acc = formatLoop gt ev lines (i + 1) remove acc := by
  conv_lhs => rw [formatLoop]
  simp only [dif_pos h, hgt, if_neg hni]

theorem formatLoop_if_ok (gt : JStr → Option TokenData) (ev : JStr → RawEval)
    (lines : List JStr) (i : Nat) (remove : List Nat) (acc acc1 : AccSt) (td : TokenData)
    (e : Nat) (rem : List Nat)
    (h : i < lines.length) (hgt : gt (jsAt lines i) = some td)
    (ht : td.token = tokIf)
    (hq : parseIf gt ev lines i false acc = (acc1, .ok e rem)) :
    formatLoop gt ev lines i remove acc = formatLoop gt ev lines (e + 1) (remove ++ rem) acc1 := by
  conv_lhs => rw [formatLoop]
  simp only [dif_pos h, hgt, if_pos ht]
  split
  · rename_i acc2 e2 rem2 heq
    rw [hq] at heq
    cases heq
    rfl
  · rename_i acc2 er2 heq
    rw [hq] at heq
    simp at heq

theorem formatLoop_if_err (gt : JStr → Option TokenData) (ev : JStr → RawEval)
    (lines : List JStr) (i : Nat) (remove : List Nat) (acc acc1 : AccSt) (td : TokenData)
    (er : Err)
    (h : i < lines.length) (hgt : gt (jsAt lines i) = some td)
    (ht : td.token = tokIf)
    (hq : parseIf gt ev lines i false acc = (acc1, .err er)) :
    formatLoop gt ev lines i remove acc = (acc1, .error er) := by
  conv_lhs => rw [formatLoop]
  simp only [dif_pos h, hgt, if_pos ht]
  split
  · rename_i acc2 e2 rem2 heq
    rw [hq] at heq
    simp at heq
  · rename_i acc2 er2 heq
    rw [hq] at heq
    cases heq
    rfl


theorem parseLoop_covers_ignore (gt : JStr → Option TokenData) (ev : JStr → RawEval)
    (lines : List JStr) :
    ∀ (start : Nat) (ignore : Bool) (i : Nat) (prune done : Bool) (remove : List Nat)
      (acc acc1 : AccSt) (e : Nat) (rem : List Nat),
      parseLoop gt ev lines start ignore i prune done remove acc = (acc1, .ok e rem) →
      ignore = true →
      (∀ x ∈ remove, x ∈ rem) ∧ (∀ j, i ≤ j → j ≤ e → j ∈ rem) := by
  intro start ignore i prune done remove acc
  induction start, ignore, i, prune, done, remove, acc using parseLoopS.induct gt ev lines with
  | case1 start ignore i prune done remove acc h hgt ih =>
    intro acc1 e rem hq hig
    subst hig
    rw [parseLoop_noToken gt ev lines start true i prune done remove acc h hgt] at hq
    obtain ⟨sub1, cov1⟩ := ih acc1 e rem (by simpa using hq) rfl
    refine ⟨fun x hx => sub1 x (by simp [hx]), fun j hj1 hj2 => ?_⟩
    rcases Nat.eq_or_lt_of_le hj1 with hj | hj
    · exact sub1 j (by simp [hj])
    · exact cov1 j hj hj2
  | case2 start ignore i prune done remove acc h td hgt htif hne acc0 e1 rem1 hp heq ih1 ih2 =>
    intro acc1 e rem hq hig
    subst hig
    have hpi : parseIf gt ev lines i (prune || true) acc = (acc0, .ok e1 rem1) := by
      simp only [parseIf, parseLoop, heq, enrichR]
    rw [parseLoop_ifNested_ok gt ev lines start true i prune done remove acc acc0 td e1 rem1
        h hgt htif hne hpi] at hq
    obtain ⟨sub1, cov1⟩ := ih1 acc0 e1 rem1 (by simp only [parseLoop]; rw [heq]) (by simp)
    obtain ⟨sub2, cov2⟩ := ih2 acc1 e rem (by simpa using hq) rfl
    have hrem1 : ∀ x ∈ rem1, x ∈ rem := fun x hx => sub2 x (by simp [hx])
    refine ⟨fun x hx => sub2 x (by simp [hx]), fun j hj1 hj2 => ?_⟩
    by_cases hje : j ≤ e1
    · exact hrem1 j (cov1 j hj1 hje)
    · exact cov2 j (by omega) hj2
  | case3 start ignore i prune done remove acc h td hgt htif hne acc0 er prop heq ih1 =>
    intro acc1 e rem hq hig
    subst hig
    have hpi : parseIf gt ev lines i (prune || true) acc = (acc0, .err (enrich gt lines i er)) := by
      simp only [parseIf, parseLoop, heq, enrichR]
    rw [parseLoop_ifNested_err gt ev lines start true i prune done remove acc acc0 td
        (enrich gt lines i er) h hgt htif hne hpi] at hq
    simp at hq
  | case4 start ignore i prune done remove acc h td hgt htif hnne exp hev ih =>
    intro acc1 e rem hq hig
    subst hig
    have his : i = start := not_ne_iff.mp hnne
    subst his
    rw [parseLoop_ifStart_ok gt ev lines true i prune done remove acc td exp h hgt htif hev] at hq
    obtain ⟨sub1, cov1⟩ := ih acc1 e rem (by simpa using hq) rfl
    refine ⟨fun x hx => sub1 x (by simp [hx]), fun j hj1 hj2 => ?_⟩
    rcases Nat.eq_or_lt_of_le hj1 with hj | hj
    · exact sub1 j (by simp [hj])
    · exact cov1 j hj hj2
  | case5 start ignore i prune done remove acc h td hgt htif hnne er hev =>
    intro acc1 e rem hq hig
    subst hig
    have his : i = start := not_ne_iff.mp hnne
    subst his
    rw [parseLoop_ifStart_err gt ev lines true i prune done remove acc td er h hgt htif hev] at hq
    simp at hq
  | case6 start ignore i prune done remove acc h td hgt hnif htend =>
    intro acc1 e rem hq hig
    subst hig
    rw [parseLoop_endif gt ev lines start true i prune done remove acc td h hgt htend] at hq
    simp only [Prod.mk.injEq, LRes.ok.injEq] at hq
    obtain ⟨ha, hb, hc⟩ := hq
    subst ha hb hc
    refine ⟨fun x hx => by simp [hx], fun j hj1 hj2 => by simp; omega⟩
  | case7 start ignore i prune done remove acc h td hgt hnif hnend hskip ih =>
    intro acc1 e rem hq hig
    subst hig
    rw [parseLoop_skip gt ev lines start true i prune done remove acc td h hgt hnif hnend
        (by simp)] at hq
    obtain ⟨sub1, cov1⟩ := ih acc1 e rem (by simpa using hq) rfl
    refine ⟨fun x hx => sub1 x (by simp [hx]), fun j hj1 hj2 => ?_⟩
    rcases Nat.eq_or_lt_of_le hj1 with hj | hj
    · exact sub1 j (by simp [hj])
    · exact cov1 j hj hj2
  | case8 start ignore i prune done remove acc h td hgt hnif hnend hnskip hels ih =>
    intro acc1 e rem hq hig
    subst hig
    simp at hnskip
  | case9 start ignore i prune done remove acc h td hgt hnif hnend hnskip hnels helif exp hev ih =>
    intro acc1 e rem hq hig
    subst hig
    simp at hnskip
  | case10 start ignore i prune done remove acc h td hgt hnif hnend hnskip hnels helif er hev =>
    intro acc1 e rem hq hig
    subst hig
    simp at hnskip
  | case11 start ignore i done remove acc h td hgt hnif hnend hnels hnelif hw hnskip ih =>
    intro acc1 e rem hq hig
    subst hig
    simp at hnskip
  | case12 start ignore i prune done remove acc h td hgt hnif hnend hnskip hnels hnelif hw hnp ih =>
    intro acc1 e rem hq hig
    subst hig
    simp_all
  | case13 start ignore i done remove acc h td hgt hnif hnend hnels hnelif hnw he hnskip ih =>
    intro acc1 e rem hq hig
    subst hig
    simp at hnskip
  | case14 start ignore i prune done remove acc h td hgt hnif hnend hnskip hnels hnelif hnw he hnp =>
    intro acc1 e rem hq hig
    subst hig
    simp_all
  | case15 start ignore i prune done remove acc h td hgt hnif hnend hnskip hnels hnelif hnw hne ih =>
    intro acc1 e rem hq hig
    subst hig
    simp at hnskip
  | case16 start ignore i prune done remove acc h =>
    intro acc1 e rem hq hig
    rw [parseLoop_unterm gt ev lines start ignore i prune done remove acc h] at hq
    simp at hq

theorem parseLoop_covers_directives (gt : JStr → Option TokenData) (ev : JStr → RawEval)
    (lines : List JStr) :
    ∀ (start : Nat) (ignore : Bool) (i : Nat) (prune done : Bool) (remove : List Nat)
      (acc acc1 : AccSt) (e : Nat) (rem : List Nat),
      parseLoop gt ev lines start ignore i prune done remove acc = (acc1, .ok e rem) →
      (∀ x ∈ remove, x ∈ rem) ∧
      (∀ j, i ≤ j → j ≤ e → gt (jsAt lines j) ≠ none → j ∈ rem) := by
  intro start ignore i prune done remove acc
  induction start, ignore, i, prune, done, remove, acc using parseLoopS.induct gt ev lines with
  | case1 start ignore i prune done remove acc h hgt ih =>
    intro acc1 e rem hq
    rw [parseLoop_noToken gt ev lines start ignore i prune done remove acc h hgt] at hq
    obtain ⟨sub1, cov1⟩ := ih acc1 e rem (by simpa using hq)
    refine ⟨fun x hx => sub1 x (by by_cases hc : (prune || ignore) = true <;> simp [hc, hx]),
      fun j hj1 hj2 hd => ?_⟩
    rcases Nat.eq_or_lt_of_le hj1 with hj | hj
    · exact absurd hgt (by rw [← hj] at hd; simpa using hd)
    · exact cov1 j hj hj2 hd
  | case2 start ignore i prune done remove acc h td hgt htif hne acc0 e1 rem1 hp heq ih1 ih2 =>
    intro acc1 e rem hq
    have hpi : parseIf gt ev lines i (prune || ignore) acc = (acc0, .ok e1 rem1) := by
      simp only [parseIf, parseLoop, heq, enrichR]
    rw [parseLoop_ifNested_ok gt ev lines start ignore i prune done remove acc acc0 td e1 rem1
        h hgt htif hne hpi] at hq
    obtain ⟨sub1, cov1⟩ := ih1 acc0 e1 rem1 (by simp only [parseLoop]; rw [heq])
    obtain ⟨sub2, cov2⟩ := ih2 acc1 e rem (by simpa using hq)
    have hrem1 : ∀ x ∈ rem1, x ∈ rem := fun x hx => sub2 x (by simp [hx])
    refine ⟨fun x hx => sub2 x (by by_cases hc : (prune || ignore) = true <;> simp [hc, hx]),
      fun j hj1 hj2 hd => ?_⟩
    by_cases hje : j ≤ e1
    · exact hrem1 j (cov1 j hj1 hje hd)
    · exact cov2 j (by omega) hj2 hd
  | case3 start ignore i prune done remove acc h td hgt htif hne acc0 er prop heq ih1 =>
    intro acc1 e rem hq
    have hpi : parseIf gt ev lines i (prune || ignore) acc = (acc0, .err (enrich gt lines i er)) := by
      simp only [parseIf, parseLoop, heq, enrichR]
    rw [parseLoop_ifNested_err gt ev lines start ignore i prune done remove acc acc0 td
        (enrich gt lines i er) h hgt htif hne hpi] at hq
    simp at hq
  | case4 start ignore i prune done remove acc h td hgt htif hnne exp hev ih =>
    intro acc1 e rem hq
    have his : i = start := not_ne_iff.mp hnne
    subst his
    rw [parseLoop_ifStart_ok gt ev lines ignore i prune done remove acc td exp h hgt htif hev] at hq
    obtain ⟨sub1, cov1⟩ := ih acc1 e rem (by simpa using hq)
    refine ⟨fun x hx => sub1 x (by by_cases hc : (prune || ignore) = true <;> simp [hc, hx]),
      fun j hj1 hj2 hd => ?_⟩
    rcases Nat.eq_or_lt_of_le hj1 with hj | hj
    · exact sub1 j (by simp [← hj])
    · exact cov1 j hj hj2 hd
  | case5 start ignore i prune done remove acc h td hgt htif hnne er hev =>
    intro acc1 e rem hq
    have his : i = start := not_ne_iff.mp hnne
    subst his
    rw [parseLoop_ifStart_err gt ev lines ignore i prune done remove acc td er h hgt htif hev] at hq
    simp at hq
  | case6 start ignore i prune done remove acc h td hgt hnif htend =>
    intro acc1 e rem hq
    rw [parseLoop_endif gt ev lines start ignore i prune done remove acc td h hgt htend] at hq
    simp only [Prod.mk.injEq, LRes.ok.injEq] at hq
    obtain ⟨ha, hb, hc⟩ := hq
    subst ha hb hc
    refine ⟨fun x hx => by by_cases hc : (prune || ignore) = true <;> simp [hc, hx],
      fun j hj1 hj2 hd => by simp; omega⟩
  | case7 start ignore i prune done remove acc h td hgt hnif hnend hskip ih =>
    intro acc1 e rem hq
    rw [parseLoop_skip gt ev lines start ignore i prune done remove acc td h hgt hnif hnend
        hskip] at hq
    obtain ⟨sub1, cov1⟩ := ih acc1 e rem (by simpa using hq)
    refine ⟨fun x hx => sub1 x (by by_cases hc : (prune || ignore) = true <;> simp [hc, hx]),
      fun j hj1 hj2 hd => ?_⟩
    rcases Nat.eq_or_lt_of_le hj1 with hj | hj
    · exact sub1 j (by simp [← hj])
    · exact cov1 j hj hj2 hd
  | case8 start ignore i prune done remove acc h td hgt hnif hnend hnskip hels ih =>
    intro acc1 e rem hq
    rw [parseLoop_else gt ev lines start ignore i prune done remove acc td h hgt hels
        (by simpa using hnskip)] at hq
    obtain ⟨sub1, cov1⟩ := ih acc1 e rem (by simpa using hq)
    refine ⟨fun x hx => sub1 x (by by_cases hc : (prune || ignore) = true <;> simp [hc, hx]),
      fun j hj1 hj2 hd => ?_⟩
    rcases Nat.eq_or_lt_of_le hj1 with hj | hj
    · exact sub1 j (by simp [← hj])
    · exact cov1 j hj hj2 hd
  | case9 start ignore i prune done remove acc h td hgt hnif hnend hnskip hnels helif exp hev ih =>
    intro acc1 e rem hq
    rw [parseLoop_elseif_ok gt ev lines start ignore i prune done remove acc td exp h hgt helif
        (by simpa using hnskip) hev] at hq
    obtain ⟨sub1, cov1⟩ := ih acc1 e rem (by simpa using hq)
    refine ⟨fun x hx => sub1 x (by by_cases hc : (prune || ignore) = true <;> simp [hc, hx]),
      fun j hj1 hj2 hd => ?_⟩
    rcases Nat.eq_or_lt_of_le hj1 with hj | hj
    · exact sub1 j (by simp [← hj])
    · exact cov1 j hj hj2 hd
  | case10 start ignore i prune done remove acc h td hgt hnif hnend hnskip hnels helif er hev =>
    intro acc1 e rem hq
    rw [parseLoop_elseif_err gt ev lines start ignore i prune done remove acc td er h hgt helif
        (by simpa using hnskip) hev] at hq
    simp at hq
  | case11 start ignore i done remove acc h td hgt hnif hnend hnels hnelif hw hnskip ih =>
    intro acc1 e rem hq
    have hig : ignore = false := by
      rcases Bool.eq_false_or_eq_true ignore with hig | hig
      · simp [hig] at hnskip
      · exact hig
    have hdn : done = false := by
      rcases Bool.eq_false_or_eq_true done with hdn | hdn
      · simp [hig, hdn] at hnskip
      · exact hdn
    subst hdn
    rw [parseLoop_warn_pruned gt ev lines start ignore i remove acc td h hgt hw hig] at hq
    obtain ⟨sub1, cov1⟩ := ih acc1 e rem (by simpa using hq)
    refine ⟨fun x hx => sub1 x (by simp [hig, hx]),
      fun j hj1 hj2 hd => ?_⟩
    rcases Nat.eq_or_lt_of_le hj1 with hj | hj
    · exact sub1 j (by simp [← hj])
    · exact cov1 j hj hj2 hd
  | case12 start ignore i prune done remove acc h td hgt hnif hnend hnskip hnels hnelif hw hnp ih =>
    intro acc1 e rem hq
    have hig : ignore = false := by
      rcases Bool.eq_false_or_eq_true ignore with hig | hig
      · simp [hig] at hnskip
      · exact hig
    have hpr : prune = false := by simpa using hnp
    subst hpr
    rw [parseLoop_warn_active gt ev lines start ignore i done remove acc td h hgt hw hig] at hq
    obtain ⟨sub1, cov1⟩ := ih acc1 e rem (by simpa using hq)
    refine ⟨fun x hx => sub1 x (by simp [hig, hx]),
      fun j hj1 hj2 hd => ?_⟩
    rcases Nat.eq_or_lt_of_le hj1 with hj | hj
    · exact sub1 j (by simp [← hj])
    · exact cov1 j hj hj2 hd
  | case13 start ignore i done remove acc h td hgt hnif hnend hnels hnelif hnw he hnskip ih =>
    intro acc1 e rem hq
    have hig : ignore = false := by
      rcases Bool.eq_false_or_eq_true ignore with hig | hig
      · simp [hig] at hnskip
      · exact hig
    have hdn : done = false := by
      rcases Bool.eq_false_or_eq_true done with hdn | hdn
      · simp [hig, hdn] at hnskip
      · exact hdn
    subst hdn
    rw [parseLoop_error_pruned gt ev lines start ignore i remove acc td h hgt he hig] at hq
    obtain ⟨sub1, cov1⟩ := ih acc1 e rem (by simpa using hq)
    refine ⟨fun x hx => sub1 x (by simp [hig, hx]),
      fun j hj1 hj2 hd => ?_⟩
    rcases Nat.eq_or_lt_of_le hj1 with hj | hj
    · exact sub1 j (by simp [← hj])
    · exact cov1 j hj hj2 hd
  | case14 start ignore i prune done remove acc h td hgt hnif hnend hnskip hnels hnelif hnw he hnp =>
    intro acc1 e rem hq
    have hig : ignore = false := by
      rcases Bool.eq_false_or_eq_true ignore with hig | hig
      · simp [hig] at hnskip
      · exact hig
    have hpr : prune = false := by simpa using hnp
    subst hpr
    rw [parseLoop_error_active gt ev lines start ignore i done remove acc td h hgt he hig] at hq
    simp at hq
  | case15 start ignore i prune done remove acc h td hgt hnif hnend hnskip hnels hnelif hnw hne ih =>
    intro acc1 e rem hq
    rw [parseLoop_otherTok gt ev lines start ignore i prune done remove acc td h hgt hnif hnend
        hnels hnelif hnw hne (by simpa using hnskip)] at hq
    obtain ⟨sub1, cov1⟩ := ih acc1 e rem (by simpa using hq)
    refine ⟨fun x hx => sub1 x (by by_cases hc : (prune || ignore) = true <;> simp [hc, hx]),
      fun j hj1 hj2 hd => ?_⟩
    rcases Nat.eq_or_lt_of_le hj1 with hj | hj
    · exact sub1 j (by simp [← hj])
    · exact cov1 j hj hj2 hd
  | case16 start ignore i prune done remove acc h =>
    intro acc1 e rem hq
    rw [parseLoop_unterm gt ev lines start ignore i prune done remove acc h] at hq
    simp at hq

theorem enrich_line (gt : JStr → Option TokenData) (lines : List JStr) (start : Nat) (e : Err) :
    (enrich gt lines start e).line = e.line := rfl

theorem enrich_message (gt : JStr → Option TokenData) (lines : List JStr) (start : Nat) (e : Err) :
    (enrich gt lines start e).message = e.message := rfl

theorem parseIf_err_of_loop (gt : JStr → Option TokenData) (ev : JStr → RawEval)
    (lines : List JStr) (start : Nat) (ignore : Bool) (acc acc1 : AccSt) (e0 : Err)
    (hq : parseLoop gt ev lines start ignore start false false [] acc = (acc1, .err e0)) :
    parseIf gt ev lines start ignore acc = (acc1, .err (enrich gt lines start e0)) := by
  simp only [parseIf, hq, enrichR]

theorem parseIf_ok_of_loop (gt : JStr → Option TokenData) (ev : JStr → RawEval)
    (lines : List JStr) (start : Nat) (ignore : Bool) (acc acc1 : AccSt) (e : Nat)
    (rem : List Nat)
    (hq : parseLoop gt ev lines start ignore start false false [] acc = (acc1, .ok e rem)) :
    parseIf gt ev lines start ignore acc = (acc1, .ok e rem) := by
  simp only [parseIf, hq, enrichR]

theorem parseIf_err_location (gt : JStr → Option TokenData) (ev : JStr → RawEval)
    (lines : List JStr) (start : Nat) (ignore : Bool) (acc acc1 : AccSt) (e : Err)
    (hq : parseIf gt ev lines start ignore acc = (acc1, .err e)) :
    e.location = some { line := e.line.getD start + 1,
                        lineText := jsAt lines (e.line.getD start),
                        column := (gt (jsAt lines (e.line.getD start))).map TokenData.column,
                        length := (gt (jsAt lines (e.line.getD start))).map TokenData.length } := by
  rcases hv : parseLoop gt ev lines start ignore start false false [] acc with ⟨acc0, r0⟩
  rcases r0 with ⟨e0, rem0⟩ | e0
  · simp only [parseIf, hv, enrichR] at hq
    simp at hq
  · simp only [parseIf, hv, enrichR] at hq
    obtain ⟨ha, hb⟩ := Prod.mk.injEq .. ▸ hq
    cases hb
    simp [enrich]

theorem formatLoop_err_parseIf (gt : JStr → Option TokenData) (ev : JStr → RawEval)
    (lines : List JStr) :
    ∀ (i : Nat) (remove : List Nat) (acc acc1 : AccSt) (e : Err),
      formatLoop gt ev lines i remove acc = (acc1, .error e) →
      ∃ s acc0, parseIf gt ev lines s false acc0 = (acc1, .err e) := by
  intro i remove acc
  induction i, remove, acc using formatLoop.induct gt ev lines with
  | case1 i remove acc h hgt ih =>
    intro acc1 e hq
    rw [formatLoop_noToken gt ev lines i remove acc h hgt] at hq
    exact ih acc1 e hq
  | case2 i remove acc h td hgt ht acc2 e2 rem2 hpi ih =>
    intro acc1 e hq
    rw [formatLoop_if_ok gt ev lines i remove acc acc2 td e2 rem2 h hgt ht hpi] at hq
    exact ih acc1 e hq
  | case3 i remove acc h td hgt ht acc2 er hpi =>
    intro acc1 e hq
    rw [formatLoop_if_err gt ev lines i remove acc acc2 td er h hgt ht hpi] at hq
    simp only [Prod.mk.injEq, Except.error.injEq] at hq
    obtain ⟨ha, hb⟩ := hq
    subst ha hb
    exact ⟨i, acc, hpi⟩
  | case4 i remove acc h td hgt hni ih =>
    intro acc1 e hq
    rw [formatLoop_notIf gt ev lines i remove acc td h hgt hni] at hq
    exact ih acc1 e hq
  | case5 i remove acc h =>
    intro acc1 e hq
    rw [formatLoop_end gt ev lines i remove acc h] at hq
    simp at hq

theorem format_err_loop (gt : JStr → Option TokenData) (ev : JStr → RawEval)
    (fill : Bool) (data : JStr) (acc1 : AccSt) (e : Err)
    (hq : format gt ev fill data = (acc1, .error e)) :
    formatLoop gt ev (splitNl data) 0 [] ⟨[], []⟩ = (acc1, .error e) := by
  rcases hF : formatLoop gt ev (splitNl data) 0 [] ⟨[], []⟩ with ⟨acc0, r0⟩
  rcases r0 with e0 | r0
  · simp only [format, hF] at hq
    simp only [Prod.mk.injEq, Except.error.injEq] at hq
    obtain ⟨ha, hb⟩ := hq
    subst ha hb
    rfl
  · simp only [format, hF] at hq
    simp at hq

theorem format_ok_loop (gt : JStr → Option TokenData) (ev : JStr → RawEval)
    (fill : Bool) (data : JStr) (acc1 : AccSt) (out : JStr)
    (hq : format gt ev fill data = (acc1, .ok out)) :
    ∃ remove, formatLoop gt ev (splitNl data) 0 [] ⟨[], []⟩ = (acc1, .ok remove) ∧
      out = joinNl (if fill then
          jsMapIdx (fun i e => if remove.contains i then List.replicate e.length ' ' else e)
            0 (splitNl data)
        else
          jsMapIdx (fun i e => if remove.contains i then '/' :: '/' :: e else e)
            0 (splitNl data)) := by
  rcases hF : formatLoop gt ev (splitNl data) 0 [] ⟨[], []⟩ with ⟨acc0, r0⟩
  rcases r0 with e0 | r0
  · simp only [format, hF] at hq
    simp at hq
  · simp only [format, hF] at hq
    rcases fill with _ | _
    · simp only [Bool.false_eq_true, if_false, Prod.mk.injEq, Except.ok.injEq] at hq ⊢
      obtain ⟨ha, hb⟩ := hq
      subst ha
      exact ⟨r0, ⟨rfl, rfl⟩, hb.symm⟩
    · simp only [if_true, Prod.mk.injEq, Except.ok.injEq] at hq ⊢
      obtain ⟨ha, hb⟩ := hq
      subst ha
      exact ⟨r0, ⟨rfl, rfl⟩, hb.symm⟩

theorem mem_jsMapIdx (f : Nat → JStr → JStr) :
    ∀ (i : Nat) (L : List JStr) (x : JStr), x ∈ jsMapIdx f i L → ∃ j a, a ∈ L ∧ x = f j a := by
  intro i L
  induction L generalizing i with
  | nil => simp [jsMapIdx]
  | cons a as ih =>
    intro x hx
    rcases List.mem_cons.mp hx with hx | hx
    · exact ⟨i, a, List.mem_cons_self a as, hx⟩
    · obtain ⟨j, b, hb, hxb⟩ := ih (i + 1) x hx
      exact ⟨j, b, List.mem_cons_of_mem a hb, hxb⟩

theorem parseLoop_ok_endif (gt : JStr → Option TokenData) (ev : JStr → RawEval)
    (lines : List JStr) :
    ∀ (start : Nat) (ignore : Bool) (i : Nat) (prune done : Bool) (remove : List Nat)
      (acc acc1 : AccSt) (e : Nat) (rem : List Nat),
      parseLoop gt ev lines start ignore i prune done remove acc = (acc1, .ok e rem) →
      e < lines.length ∧ ∃ td, gt (jsAt lines e) = some td ∧ td.token = tokEndif := by
  intro start ignore i prune done remove acc
  induction start, ignore, i, prune, done, remove, acc using parseLoopS.induct gt ev lines with
  | case1 start ignore i prune done remove acc h hgt ih =>
    intro acc1 e rem hq
    rw [parseLoop_noToken gt ev lines start ignore i prune done remove acc h hgt] at hq
    exact ih acc1 e rem (by simpa using hq)
  | case2 start ignore i prune done remove acc h td hgt htif hne acc0 e1 rem1 hp heq ih1 ih2 =>
    intro acc1 e rem hq
    have hpi : parseIf gt ev lines i (prune || ignore) acc = (acc0, .ok e1 rem1) := by
      simp only [parseIf, parseLoop, heq, enrichR]
    rw [parseLoop_ifNested_ok gt ev lines start ignore i prune done remove acc acc0 td e1 rem1
        h hgt htif hne hpi] at hq
    exact ih2 acc1 e rem (by simpa using hq)
  | case3 start ignore i prune done remove acc h td hgt htif hne acc0 er prop heq ih1 =>
    intro acc1 e rem hq
    have hpi : parseIf gt ev lines i (prune || ignore) acc = (acc0, .err (enrich gt lines i er)) := by
      simp only [parseIf, parseLoop, heq, enrichR]
    rw [parseLoop_ifNested_err gt ev lines start ignore i prune done remove acc acc0 td
        (enrich gt lines i er) h hgt htif hne hpi] at hq
    simp at hq
  | case4 start ignore i prune done remove acc h td hgt htif hnne exp hev ih =>
    intro acc1 e rem hq
    have his : i = start := not_ne_iff.mp hnne
    subst his
    rw [parseLoop_ifStart_ok gt ev lines ignore i prune done remove acc td exp h hgt htif hev] at hq
    exact ih acc1 e rem (by simpa using hq)
  | case5 start ignore i prune done remove acc h td hgt htif hnne er hev =>
    intro acc1 e rem hq
    have his : i = start := not_ne_iff.mp hnne
    subst his
    rw [parseLoop_ifStart_err gt ev lines ignore i prune done remove acc td er h hgt htif hev] at hq
    simp at hq
  | case6 start ignore i prune done remove acc h td hgt hnif htend =>
    intro acc1 e rem hq
    rw [parseLoop_endif gt ev lines start ignore i prune done remove acc td h hgt htend] at hq
    simp only [Prod.mk.injEq, LRes.ok.injEq] at hq
    obtain ⟨ha, hb, hc⟩ := hq
    subst ha hb
    exact ⟨h, td, hgt, htend⟩
  | case7 start ignore i prune done remove acc h td hgt hnif hnend hskip ih =>
    intro acc1 e rem hq
    rw [parseLoop_skip gt ev lines start ignore i prune done remove acc td h hgt hnif hnend
        hskip] at hq
    exact ih acc1 e rem (by simpa using hq)
  | case8 start ignore i prune done remove acc h td hgt hnif hnend hnskip hels ih =>
    intro acc1 e rem hq
    rw [parseLoop_else gt ev lines start ignore i prune done remove acc td h hgt hels
        (by simpa using hnskip)] at hq
    exact ih acc1 e rem (by simpa using hq)
  | case9 start ignore i prune done remove acc h td hgt hnif hnend hnskip hnels helif exp hev ih =>
    intro acc1 e rem hq
    rw [parseLoop_elseif_ok gt ev lines start ignore i prune done remove acc td exp h hgt helif
        (by simpa using hnskip) hev] at hq
    exact ih acc1 e rem (by simpa using hq)
  | case10 start ignore i prune done remove acc h td hgt hnif hnend hnskip hnels helif er hev =>
    intro acc1 e rem hq
    rw [parseLoop_elseif_err gt ev lines start ignore i prune done remove acc td er h hgt helif
        (by simpa using hnskip) hev] at hq
    simp at hq
  | case11 start ignore i done remove acc h td hgt hnif hnend hnels hnelif hw hnskip ih =>
    intro acc1 e rem hq
    have hig : ignore = false := by
      rcases Bool.eq_false_or_eq_true ignore with hig | hig
      · simp [hig] at hnskip
      · exact hig
    have hdn : done = false := by
      rcases Bool.eq_false_or_eq_true done with hdn | hdn
      · simp [hig, hdn] at hnskip
      · exact hdn
    subst hdn
    rw [parseLoop_warn_pruned gt ev lines start ignore i remove acc td h hgt hw hig] at hq
    exact ih acc1 e rem (by simpa using hq)
  | case12 start ignore i prune done remove acc h td hgt hnif hnend hnskip hnels hnelif hw hnp ih =>
    intro acc1 e rem hq
    have hig : ignore = false := by
      rcases Bool.eq_false_or_eq_true ignore with hig | hig
      · simp [hig] at hnskip
      · exact hig
    have hpr : prune = false := by simpa using hnp
    subst hpr
    rw [parseLoop_warn_active gt ev lines start ignore i done remove acc td h hgt hw hig] at hq
    exact ih acc1 e rem (by simpa using hq)
  | case13 start ignore i done remove acc h td hgt hnif hnend hnels hnelif hnw he hnskip ih =>
    intro acc1 e rem hq
    have hig : ignore = false := by
      rcases Bool.eq_false_or_eq_true ignore with hig | hig
      · simp [hig] at hnskip
      · exact hig
    have hdn : done = false := by
      rcases Bool.eq_false_or_eq_true done with hdn | hdn
      · simp [hig, hdn] at hnskip
      · exact hdn
    subst hdn
    rw [parseLoop_error_pruned gt ev lines start ignore i remove acc td h hgt he hig] at hq
    exact ih acc1 e rem (by simpa using hq)
  | case14 start ignore i prune done remove acc h td hgt hnif hnend hnskip hnels hnelif hnw he hnp =>
    intro acc1 e rem hq
    have hig : ignore = false := by
      rcases Bool.eq_false_or_eq_true ignore with hig | hig
      · simp [hig] at hnskip
      · exact hig
    have hpr : prune = false := by simpa using hnp
    subst hpr
    rw [parseLoop_error_active gt ev lines start ignore i done remove acc td h hgt he hig] at hq
    simp at hq
  | case15 start ignore i prune done remove acc h td hgt hnif hnend hnskip hnels hnelif hnw hne ih =>
    intro acc1 e rem hq
    rw [parseLoop_otherTok gt ev lines start ignore i prune done remove acc td h hgt hnif hnend
        hnels hnelif hnw hne (by simpa using hnskip)] at hq
    exact ih acc1 e rem (by simpa using hq)
  | case16 start ignore i prune done remove acc h =>
    intro acc1 e rem hq
    rw [parseLoop_unterm gt ev lines start ignore i prune done remove acc h] at hq
    simp at hq

/-- C1: for every matcher, evaluator, rendering mode and input text on which
`format` returns (instead of raising), the transformed text has exactly the
same number of lines (split on the newline character) as the input text. -/
theorem c1_line_count (gt : JStr → Option TokenData) (ev : JStr → RawEval)
    (fill : Bool) (data : JStr) (acc : AccSt) (out : JStr)
    (hq : format gt ev fill data = (acc, .ok out)) :
    (splitNl out).length = (splitNl data).length := by
  obtain ⟨remove, hF, hout⟩ := format_ok_loop gt ev fill data acc out hq
  subst hout
  have hlenpos : 0 < (splitNl data).length :=
    List.length_pos.mpr (splitNl_ne_nil data)
  rcases fill with _ | _
  · simp only [Bool.false_eq_true, if_false]
    have hlen := length_jsMapIdx
      (fun i e => if remove.contains i then '/' :: '/' :: e else e) 0 (splitNl data)
    have hne : jsMapIdx (fun i e => if remove.contains i then '/' :: '/' :: e else e)
        0 (splitNl data) ≠ [] := by
      intro hx
      rw [hx] at hlen
      simp at hlen
      omega
    have hnl2 : ∀ x ∈ jsMapIdx (fun i e => if remove.contains i then '/' :: '/' :: e else e)
        0 (splitNl data), '\n' ∉ x := by
      intro x hx
      obtain ⟨j, a, ha, hxa⟩ := mem_jsMapIdx _ 0 (splitNl data) x hx
      subst hxa
      have hna := nl_not_mem_splitNl data a ha
      by_cases hc : j ∈ remove <;> simp [hc, hna]
    rw [splitNl_joinNl _ hne hnl2, hlen]
  · simp only [if_true]
    have hlen := length_jsMapIdx
      (fun i e => if remove.contains i then List.replicate e.length ' ' else e) 0 (splitNl data)
    have hne : jsMapIdx (fun i e => if remove.contains i then List.replicate e.length ' ' else e)
        0 (splitNl data) ≠ [] := by
      intro hx
      rw [hx] at hlen
      simp at hlen
      omega
    have hnl2 : ∀ x ∈ jsMapIdx
        (fun i e => if remove.contains i then List.replicate e.length ' ' else e)
        0 (splitNl data), '\n' ∉ x := by
      intro x hx
      obtain ⟨j, a, ha, hxa⟩ := mem_jsMapIdx _ 0 (splitNl data) x hx
      subst hxa
      have hna := nl_not_mem_splitNl data a ha
      by_cases hc : j ∈ remove <;> simp [hc, hna, List.mem_replicate]
    rw [splitNl_joinNl _ hne hnl2, hlen]

/-- C2: for every line index of the input, `format` renders an index in the
accumulated suppression set as a string of spaces of the original line's
length when `fillWithSpaces` is enabled, and as the original line prefixed
with `//` otherwise; every index not in the suppression set is rendered
identical to the input line. -/
theorem c2_rendering (gt : JStr → Option TokenData) (ev : JStr → RawEval)
    (fill : Bool) (data : JStr) (acc : AccSt) (remove : List Nat)
    (hF : formatLoop gt ev (splitNl data) 0 [] ⟨[], []⟩ = (acc, .ok remove)) :
    ∃ out, format gt ev fill data = (acc, .ok out) ∧
      ∀ i, i < (splitNl data).length →
        (splitNl out).getD i [] =
          if remove.contains i then
            (if fill then List.replicate ((splitNl data).getD i []).length ' '
             else '/' :: '/' :: (splitNl data).getD i [])
          else (splitNl data).getD i [] := by
  have hfmt : format gt ev fill data =
      (acc, .ok (joinNl (if fill then
          jsMapIdx (fun i e => if remove.contains i then List.replicate e.length ' ' else e)
            0 (splitNl data)
        else
          jsMapIdx (fun i e => if remove.contains i then '/' :: '/' :: e else e)
            0 (splitNl data)))) := by
    rcases fill with _ | _ <;> simp only [format, hF, Bool.false_eq_true, if_false, if_true]
  refine ⟨_, hfmt, ?_⟩
  intro i hi
  rcases fill with _ | _
  · simp only [Bool.false_eq_true, if_false]
    have hne : jsMapIdx (fun i e => if remove.contains i then '/' :: '/' :: e else e)
        0 (splitNl data) ≠ [] := by
      intro hx
      have hlen := length_jsMapIdx
        (fun i e => if remove.contains i then '/' :: '/' :: e else e) 0 (splitNl data)
      rw [hx] at hlen
      simp at hlen
      omega
    have hnl2 : ∀ x ∈ jsMapIdx (fun i e => if remove.contains i then '/' :: '/' :: e else e)
        0 (splitNl data), '\n' ∉ x := by
      intro x hx
      obtain ⟨j, a, ha, hxa⟩ := mem_jsMapIdx _ 0 (splitNl data) x hx
      subst hxa
      have hna := nl_not_mem_splitNl data a ha
      by_cases hc : j ∈ remove <;> simp [hc, hna]
    rw [splitNl_joinNl _ hne hnl2]
    rw [getD_jsMapIdx _ 0 i (splitNl data) hi]
    simp
  · simp only [if_true]
    have hne : jsMapIdx (fun i e => if remove.contains i then List.replicate e.length ' ' else e)
        0 (splitNl data) ≠ [] := by
      intro hx
      have hlen := length_jsMapIdx
        (fun i e => if remove.contains i then List.replicate e.length ' ' else e) 0 (splitNl data)
      rw [hx] at hlen
      simp at hlen
      omega
    have hnl2 : ∀ x ∈ jsMapIdx
        (fun i e => if remove.contains i then List.replicate e.length ' ' else e)
        0 (splitNl data), '\n' ∉ x := by
      intro x hx
      obtain ⟨j, a, ha, hxa⟩ := mem_jsMapIdx _ 0 (splitNl data) x hx
      subst hxa
      have hna := nl_not_mem_splitNl data a ha
      by_cases hc : j ∈ remove <;> simp [hc, hna, List.mem_replicate]
    rw [splitNl_joinNl _ hne hnl2]
    rw [getD_jsMapIdx _ 0 i (splitNl data) hi]
    simp

theorem parseIf_ok_loop (gt : JStr → Option TokenData) (ev : JStr → RawEval)
    (lines : List JStr) (start : Nat) (ignore : Bool) (acc acc1 : AccSt) (e : Nat)
    (rem : List Nat)
    (hq : parseIf gt ev lines start ignore acc = (acc1, .ok e rem)) :
    parseLoop gt ev lines start ignore start false false [] acc = (acc1, .ok e rem) := by
  rcases hv : parseLoop gt ev lines start ignore start false false [] acc with ⟨acc0, r0⟩
  rcases r0 with ⟨e0, rem0⟩ | e0
  · simp only [parseIf, hv, enrichR] at hq
    simp only [Prod.mk.injEq, LRes.ok.injEq] at hq
    obtain ⟨ha, hb, hc⟩ := hq
    subst ha hb hc
    rfl
  · simp only [parseIf, hv, enrichR] at hq
    simp at hq

theorem format_err_located (gt : JStr → Option TokenData) (ev : JStr → RawEval)
    (fill : Bool) (data : JStr) (acc1 : AccSt) (e : Err) (l : Nat)
    (hq : format gt ev fill data = (acc1, .error e)) (hl : e.line = some l) :
    e.location = some { line := l + 1, lineText := jsAt (splitNl data) l,
                        column := (gt (jsAt (splitNl data) l)).map TokenData.column,
                        length := (gt (jsAt (splitNl data) l)).map TokenData.length } := by
  have hFL := format_err_loop gt ev fill data acc1 e hq
  obtain ⟨s, acc0, hpi⟩ := formatLoop_err_parseIf gt ev (splitNl data) 0 [] ⟨[], []⟩ acc1 e hFL
  have := parseIf_err_location gt ev (splitNl data) s false acc0 acc1 e hpi
  rw [hl] at this
  simpa using this

/-- C3 (amended): once the chain's `done` flag is true AND the current branch
is pruning (or the frame is ignored), a later `elseif`/`elif` directive is
skipped — `prune`/`done` are unchanged (so `prune` stays true) and its
expression is never passed to the evaluator (the ghost eval log is not
extended).  However the single `elseif` immediately following the matched
branch (`done = true`, `prune = false`) does have its expression evaluated;
the result is discarded (`prune` is forced true, `done` stays true). -/
theorem c3_elseif_after_done (gt : JStr → Option TokenData) (ev : JStr → RawEval)
    (lines : List JStr) (start : Nat) (ignore : Bool) (i : Nat) (prune done : Bool)
    (remove : List Nat) (acc : AccSt) (td : TokenData) :
    (∀ (h : i < lines.length), gt (jsAt lines i) = some td →
      (td.token = tokElseif ∨ td.token = tokElif) →
      done = true → prune = true →
      parseLoop gt ev lines start ignore i prune done remove acc =
        parseLoop gt ev lines start ignore (i + 1) prune done
          ((if prune || ignore then remove ++ [i] else remove) ++ [i]) acc) ∧
    (∀ (h : i < lines.length) (b : Bool), gt (jsAt lines i) = some td →
      (td.token = tokElseif ∨ td.token = tokElif) →
      done = true → prune = false → ignore = false →
      evalExpression ev td.expression i = .ok b →
      parseLoop gt ev lines start ignore i prune done remove acc =
        parseLoop gt ev lines start ignore (i + 1) true true
          ((if prune || ignore then remove ++ [i] else remove) ++ [i])
          { acc with evals := acc.evals ++ [(td.expression, i)] }) := by
  constructor
  · intro h hgt ht hdn hpr
    subst hdn hpr
    have hni : td.token ≠ tokIf := by
      rcases ht with ht | ht <;> simp [ht, tokIf, tokElseif, tokElif]
    have hnd : td.token ≠ tokEndif := by
      rcases ht with ht | ht <;> simp [ht, tokEndif, tokElseif, tokElif]
    exact parseLoop_skip gt ev lines start ignore i true true remove acc td h hgt hni hnd
      (by simp)
  · intro h b hgt ht hdn hpr hig hev
    subst hdn hpr hig
    rw [parseLoop_elseif_ok gt ev lines start false i false true remove acc td b h hgt ht
      (by simp) hev]
    simp

/-- C4 (amended): a nested frame run with `ignore = true` is still fully
scanned — on success its `end` is an in-range `endif` directive line at or
after `start`, and every line from `start` through `end` is in the returned
suppression set; but the opening `if` expression of a frame IS passed to the
evaluator (logged in the ghost eval log) regardless of `ignore` — evaluation
is not skipped for ignored blocks. -/
theorem c4_ignored_nested (gt : JStr → Option TokenData) (ev : JStr → RawEval)
    (lines : List JStr) (start : Nat) (acc : AccSt) :
    (∀ (acc1 : AccSt) (e : Nat) (rem : List Nat),
      parseIf gt ev lines start true acc = (acc1, .ok e rem) →
      start ≤ e ∧ e < lines.length ∧
      (∃ td, gt (jsAt lines e) = some td ∧ td.token = tokEndif) ∧
      (∀ j, start ≤ j → j ≤ e → j ∈ rem)) ∧
    (∀ (td : TokenData) (b : Bool) (h : start < lines.length),
      gt (jsAt lines start) = some td → td.token = tokIf →
      evalExpression ev td.expression start = .ok b →
      ∀ (ignore prune done : Bool) (remove : List Nat),
        parseLoop gt ev lines start ignore start prune done remove acc =
          parseLoop gt ev lines start ignore (start + 1) (!b) b
            ((if prune || ignore then remove ++ [start] else remove) ++ [start])
            { acc with evals := acc.evals ++ [(td.expression, start)] }) := by
  constructor
  · intro acc1 e rem hq
    have hL := parseIf_ok_loop gt ev lines start true acc acc1 e rem hq
    have hge := parseIf_ok_ge gt ev lines start true acc acc1 e rem hq
    obtain ⟨hlt, htd⟩ := parseLoop_ok_endif gt ev lines start true start false false [] acc
      acc1 e rem hL
    obtain ⟨hsub, hcov⟩ := parseLoop_covers_ignore gt ev lines start true start false false []
      acc acc1 e rem hL rfl
    exact ⟨hge, hlt, htd, hcov⟩
  · intro td b h hgt ht hev ignore prune done remove
    exact parseLoop_ifStart_ok gt ev lines ignore start prune done remove acc td b h hgt ht hev

/-- C5 (amended): reaching the end of the line sequence without an `endif`
throws the unterminated error, which carries the frame's 0-based start in
its message and no `line` property; any error without a `line` property
escaping `parseIf` is located at THAT frame's opening line (1-based
`start + 1`) — so for nested unterminated frames the final location is the
opening line of the outermost enclosing frame, each enclosing handler having
overwritten the location with its own start. -/
theorem c5_unterminated (gt : JStr → Option TokenData) (ev : JStr → RawEval)
    (lines : List JStr) (start : Nat) (ignore : Bool) (acc : AccSt) :
    (∀ (i : Nat) (prune done : Bool) (remove : List Nat),
      ¬(i < lines.length) →
      parseLoop gt ev lines start ignore i prune done remove acc =
        (acc, .err { message := untermMsg start, line := none, location := none })) ∧
    (∀ (acc1 : AccSt) (e : Err),
      parseIf gt ev lines start ignore acc = (acc1, .err e) → e.line = none →
      e.location = some { line := start + 1, lineText := jsAt lines start,
                          column := (gt (jsAt lines start)).map TokenData.column,
                          length := (gt (jsAt lines start)).map TokenData.length }) := by
  constructor
  · intro i prune done remove h
    exact parseLoop_unterm gt ev lines start ignore i prune done remove acc h
  · intro acc1 e hq hl
    have := parseIf_err_location gt ev lines start ignore acc acc1 e hq
    rw [hl] at this
    simpa using this

/-- C6 (amended): an evaluation failure inside the evaluator call (`runErr`)
produces an error carrying the directive's 0-based line; both the opening
`if` and a non-skipped `elseif`/`elif` propagate the evaluation error
unchanged; an error whose `line` is set to `l` escapes `format` located at
line `l + 1` with that line's text and re-matched column/length.  However a
failure at function construction (`conErr`, `new Function` outside the
`try`) carries no `line`, and such an error escapes `parseIf` located at the
frame's opening line rather than at the failing directive's line. -/
theorem c6_expression_error (gt : JStr → Option TokenData) (ev : JStr → RawEval)
    (lines : List JStr) :
    (∀ (ev2 : JStr → RawEval) (expr : JStr) (l : Nat) (msg : JStr),
      ev2 expr = .runErr msg →
      evalExpression ev2 expr l = .error { message := msg, line := some l, location := none }) ∧
    (∀ (ev2 : JStr → RawEval) (expr : JStr) (l : Nat) (msg : JStr),
      ev2 expr = .conErr msg →
      evalExpression ev2 expr l = .error { message := msg, line := none, location := none }) ∧
    (∀ (start : Nat) (ignore prune done : Bool) (remove : List Nat) (acc : AccSt)
      (td : TokenData) (er : Err) (h : start < lines.length),
      gt (jsAt lines start) = some td → td.token = tokIf →
      evalExpression ev td.expression start = .error er →
      parseLoop gt ev lines start ignore start prune done remove acc =
        ({ acc with evals := acc.evals ++ [(td.expression, start)] }, .err er)) ∧
    (∀ (start : Nat) (ignore : Bool) (i : Nat) (prune done : Bool) (remove : List Nat)
      (acc : AccSt) (td : TokenData) (er : Err) (h : i < lines.length),
      gt (jsAt lines i) = some td →
      (td.token = tokElseif ∨ td.token = tokElif) →
      (ignore || (prune && done)) = false →
      evalExpression ev td.expression i = .error er →
      parseLoop gt ev lines start ignore i prune done remove acc =
        ({ acc with evals := acc.evals ++ [(td.expression, i)] }, .err er)) ∧
    (∀ (fill : Bool) (data : JStr) (acc1 : AccSt) (e : Err) (l : Nat),
      format gt ev fill data = (acc1, .error e) → e.line = some l →
      e.location = some { line := l + 1, lineText := jsAt (splitNl data) l,
                          column := (gt (jsAt (splitNl data) l)).map TokenData.column,
                          length := (gt (jsAt (splitNl data) l)).map TokenData.length }) ∧
    (∀ (start : Nat) (ignore : Bool) (acc acc1 : AccSt) (e : Err),
      parseIf gt ev lines start ignore acc = (acc1, .err e) → e.line = none →
      e.location = some { line := start + 1, lineText := jsAt lines start,
                          column := (gt (jsAt lines start)).map TokenData.column,
                          length := (gt (jsAt lines start)).map TokenData.length }) := by
  refine ⟨?_, ?_, ?_, ?_, ?_, ?_⟩
  · intro ev2 expr l msg hev
    simp [evalExpression, hev]
  · intro ev2 expr l msg hev
    simp [evalExpression, hev]
  · intro start ignore prune done remove acc td er h hgt ht hev
    exact parseLoop_ifStart_err gt ev lines ignore start prune done remove acc td er h hgt ht hev
  · intro start ignore i prune done remove acc td er h hgt ht hskip hev
    exact parseLoop_elseif_err gt ev lines start ignore i prune done remove acc td er h hgt ht
      hskip hev
  · intro fill data acc1 e l hq hl
    exact format_err_located gt ev fill data acc1 e l hq hl
  · intro start ignore acc acc1 e hq hl
    have := parseIf_err_location gt ev lines start ignore acc acc1 e hq
    rw [hl] at this
    simpa using this

/-- C7: an `error`/`err` directive in an active branch (frame not ignored,
branch not pruned) makes the loop throw an error whose message is the
directive's expression text and whose `line` is the directive's 0-based
index; `parseIf` enriches it preserving message and line; an error escaping
`format` with `line = l` is located at `l + 1` with that line's text; and
`onLoad` returns no contents — only the accumulated warnings and that single
error. -/
theorem c7_error_directive (gt : JStr → Option TokenData) (ev : JStr → RawEval)
    (lines : List JStr) :
    (∀ (start : Nat) (ignore : Bool) (i : Nat) (done : Bool) (remove : List Nat) (acc : AccSt)
      (td : TokenData) (h : i < lines.length),
      gt (jsAt lines i) = some td → (td.token = tokError ∨ td.token = tokErr) →
      ignore = false →
      parseLoop gt ev lines start ignore i false done remove acc =
        (acc, .err { message := td.expression, line := some i, location := none })) ∧
    (∀ (s : Nat) (ig : Bool) (acc acc1 : AccSt) (e0 : Err),
      parseLoop gt ev lines s ig s false false [] acc = (acc1, .err e0) →
      parseIf gt ev lines s ig acc = (acc1, .err (enrich gt lines s e0)) ∧
      (enrich gt lines s e0).message = e0.message ∧ (enrich gt lines s e0).line = e0.line) ∧
    (∀ (fill : Bool) (data : JStr) (acc1 : AccSt) (e : Err) (l : Nat),
      format gt ev fill data = (acc1, .error e) → e.line = some l →
      e.location = some { line := l + 1, lineText := jsAt (splitNl data) l,
                          column := (gt (jsAt (splitNl data) l)).map TokenData.column,
                          length := (gt (jsAt (splitNl data) l)).map TokenData.length }) ∧
    (∀ (fill : Bool) (text : JStr) (acc1 : AccSt) (e : Err) (loc : Loc),
      format gt ev fill text = (acc1, .error e) → e.location = some loc →
      onLoad gt ev fill text = .ok { contents := none, warnings := acc1.warns, errors := [e] }) := by
  refine ⟨?_, ?_, ?_, ?_⟩
  · intro start ignore i done remove acc td h hgt ht hig
    exact parseLoop_error_active gt ev lines start ignore i done remove acc td h hgt ht hig
  · intro s ig acc acc1 e0 hq
    exact ⟨parseIf_err_of_loop gt ev lines s ig acc acc1 e0 hq, rfl, rfl⟩
  · intro fill data acc1 e l hq hl
    exact format_err_located gt ev fill data acc1 e l hq hl
  · intro fill text acc1 e loc hq hloc
    simp only [onLoad, hq, hloc]

/-- C8: a `warning`/`warn` directive in an active branch appends exactly one
diagnostic carrying the directive's text, 1-based line `i + 1`, the line's
text, column and length, and adds only the directive's own index to the
suppression list; in an inactive branch (pruned, ignored, or pruned with
`done`) no diagnostic is appended. -/
theorem c8_warning_directive (gt : JStr → Option TokenData) (ev : JStr → RawEval)
    (lines : List JStr) :
    (∀ (start : Nat) (ignore : Bool) (i : Nat) (done : Bool) (remove : List Nat) (acc : AccSt)
      (td : TokenData) (h : i < lines.length),
      gt (jsAt lines i) = some td → (td.token = tokWarning ∨ td.token = tokWarn) →
      ignore = false →
      parseLoop gt ev lines start ignore i false done remove acc =
        parseLoop gt ev lines start ignore (i + 1) false done (remove ++ [i])
          { acc with warns := acc.warns ++
              [{ text := td.expression, line := i + 1, lineText := jsAt lines i,
                 column := td.column, length := td.length }] }) ∧
    (∀ (start : Nat) (ignore : Bool) (i : Nat) (remove : List Nat) (acc : AccSt)
      (td : TokenData) (h : i < lines.length),
      gt (jsAt lines i) = some td → (td.token = tokWarning ∨ td.token = tokWarn) →
      ignore = false →
      parseLoop gt ev lines start ignore i true false remove acc =
        parseLoop gt ev lines start ignore (i + 1) true false (remove ++ [i] ++ [i]) acc) ∧
    (∀ (start : Nat) (ignore : Bool) (i : Nat) (prune done : Bool) (remove : List Nat)
      (acc : AccSt) (td : TokenData) (h : i < lines.length),
      gt (jsAt lines i) = some td → (td.token = tokWarning ∨ td.token = tokWarn) →
      (ignore || (prune && done)) = true →
      parseLoop gt ev lines start ignore i prune done remove acc =
        parseLoop gt ev lines start ignore (i + 1) prune done
          ((if prune || ignore then remove ++ [i] else remove) ++ [i]) acc) := by
  refine ⟨?_, ?_, ?_⟩
  · intro start ignore i done remove acc td h hgt ht hig
    rw [parseLoop_warn_active gt ev lines start ignore i done remove acc td h hgt ht hig]
    simp [hig]
  · intro start ignore i remove acc td h hgt ht hig
    rw [parseLoop_warn_pruned gt ev lines start ignore i remove acc td h hgt ht hig]
    simp [hig]
  · intro start ignore i prune done remove acc td h hgt ht hskip
    have hni : td.token ≠ tokIf := by
      rcases ht with ht | ht <;> simp [ht, tokIf, tokWarning, tokWarn]
    have hnd : td.token ≠ tokEndif := by
      rcases ht with ht | ht <;> simp [ht, tokEndif, tokWarning, tokWarn]
    exact parseLoop_skip gt ev lines start ignore i prune done remove acc td h hgt hni hnd hskip

/-- C9 (amended): within a successfully parsed `if` frame, every line index
from `start` to the returned `end` that the matcher recognizes as a
directive is placed in the frame's suppression set.  (Directive lines
outside any frame are not suppressed — see the counterexample.) -/
theorem c9_frame_directives_suppressed (gt : JStr → Option TokenData)
    (ev : JStr → RawEval) (lines : List JStr) (start : Nat) (ignore : Bool)
    (acc acc1 : AccSt) (e : Nat) (rem : List Nat)
    (hq : parseIf gt ev lines start ignore acc = (acc1, .ok e rem)) :
    ∀ j, start ≤ j → j ≤ e → gt (jsAt lines j) ≠ none → j ∈ rem := by
  have hL := parseIf_ok_loop gt ev lines start ignore acc acc1 e rem hq
  exact (parseLoop_covers_directives gt ev lines start ignore start false false [] acc acc1
    e rem hL).2

/-- C10: an `error`/`err` directive on a line where the frame is pruning or
ignored does not abort: the loop continues to the next line with unchanged
flags and accumulators, and the directive's index is added (twice) to the
suppression list like any other inactive directive line. -/
theorem c10_error_inactive (gt : JStr → Option TokenData) (ev : JStr → RawEval)
    (lines : List JStr) (start : Nat) (ignore : Bool) (i : Nat) (prune done : Bool)
    (remove : List Nat) (acc : AccSt) (td : TokenData)
    (h : i < lines.length) (hgt : gt (jsAt lines i) = some td)
    (ht : td.token = tokError ∨ td.token = tokErr)
    (hin : (prune || ignore) = true) :
    parseLoop gt ev lines start ignore i prune done remove acc =
      parseLoop gt ev lines start ignore (i + 1) prune done (remove ++ [i] ++ [i]) acc := by
  have hni : td.token ≠ tokIf := by
    rcases ht with ht | ht <;> simp [ht, tokIf, tokError, tokErr]
  have hnd : td.token ≠ tokEndif := by
    rcases ht with ht | ht <;> simp [ht, tokEndif, tokError, tokErr]
  cases ignore with
  | true =>
    rw [parseLoop_skip gt ev lines start true i prune done remove acc td h hgt hni hnd
      (by simp)]
    simp
  | false =>
    have hpr : prune = true := by simpa using hin
    subst hpr
    cases done with
    | true =>
      rw [parseLoop_skip gt ev lines start false i true true remove acc td h hgt hni hnd
        (by simp)]
      simp
    | false =>
      rw [parseLoop_error_pruned gt ev lines start false i remove acc td h hgt ht rfl]
      simp

/-- Concrete directive matcher used for witnesses: recognizes lines of the
form `///#token expression` (a simple instance of the triple-slash pattern;
the claims are quantified over the matcher). -/
def gtSimple (line : JStr) : Option TokenData :=
  match line with
  | '/' :: '/' :: '/' :: '#' :: rest =>
    some { token := rest.takeWhile (fun c => c ≠ ' '),
           expression := (rest.dropWhile (fun c => c ≠ ' ')).drop 1,
           column := 0, length := line.length }
  | _ => none

/-- Concrete raw evaluator used for witnesses: `T` is true, `F` is false,
`Q` fails at function construction (modelling an expression whose text breaks
the generated source string, e.g. one containing a double quote), anything
else throws at call time (e.g. an unbound identifier). -/
def evW : JStr → RawEval
  | ['T'] => .ok true
  | ['F'] => .ok false
  | ['Q'] => .conErr ['C', 'o', 'n']
  | _ => .runErr ['R', 'e', 'f']

instance {e a : Type} [DecidableEq e] [DecidableEq a] : DecidableEq (Except e a) :=
  fun x y =>
    match x, y with
    | .error u, .error v =>
      if h : u = v then isTrue (by rw [h]) else isFalse (fun hx => h (by cases hx; rfl))
    | .ok u, .ok v =>
      if h : u = v then isTrue (by rw [h]) else isFalse (fun hx => h (by cases hx; rfl))
    | .error _, .ok _ => isFalse (fun hx => by cases hx)
    | .ok _, .error _ => isFalse (fun hx => by cases hx)

def linesC1 : List JStr := ["///#if T".toList, "a".toList, "///#endif".toList]

def dataC1 : JStr := "///#if T\na\n///#endif".toList

def linesC3 : List JStr := ["///#if T".toList, "///#elseif X".toList, "///#endif".toList]

def linesC4 : List JStr :=
  ["///#if F".toList, "///#if X".toList, "///#endif".toList, "///#endif".toList]

def linesC5 : List JStr := ["///#if T".toList, "///#if T".toList, "x".toList]

def dataC6 : JStr := "///#if X".toList

def linesC7 : List JStr := ["///#if T".toList, "///#error boom".toList, "///#endif".toList]

def dataC7 : JStr := "///#if T\n///#error boom\n///#endif".toList

def dataC9 : JStr := "///#warning hi".toList

theorem runC1_parse : parseIf gtSimple evW linesC1 0 false ⟨[], []⟩ =
    ({ warns := [], evals := [(['T'], 0)] }, .ok 2 [0, 2]) := by
  have s1 : parseLoop gtSimple evW linesC1 0 false 0 false false [] ⟨[], []⟩ =
      parseLoop gtSimple evW linesC1 0 false 1 false true [0] ⟨[], [(['T'], 0)]⟩ := by
    rw [parseLoop_ifStart_ok gtSimple evW linesC1 false 0 false false [] ⟨[], []⟩
      ⟨tokIf, ['T'], 0, 8⟩ true (by decide) (by decide) (by decide) (by decide)]
    rfl
  have s2 : parseLoop gtSimple evW linesC1 0 false 1 false true [0] ⟨[], [(['T'], 0)]⟩ =
      parseLoop gtSimple evW linesC1 0 false 2 false true [0] ⟨[], [(['T'], 0)]⟩ := by
    rw [parseLoop_noToken gtSimple evW linesC1 0 false 1 false true [0] ⟨[], [(['T'], 0)]⟩
      (by decide) (by decide)]
    rfl
  have s3 : parseLoop gtSimple evW linesC1 0 false 2 false true [0] ⟨[], [(['T'], 0)]⟩ =
      ({ warns := [], evals := [(['T'], 0)] }, .ok 2 [0, 2]) := by
    rw [parseLoop_endif gtSimple evW linesC1 0 false 2 false true [0] ⟨[], [(['T'], 0)]⟩
      ⟨tokEndif, [], 0, 9⟩ (by decide) (by decide) (by decide)]
    decide
  exact parseIf_ok_of_loop gtSimple evW linesC1 0 false ⟨[], []⟩ _ 2 [0, 2]
    ((s1.trans s2).trans s3)

theorem runC1_loop : formatLoop gtSimple evW linesC1 0 [] ⟨[], []⟩ =
    ({ warns := [], evals := [(['T'], 0)] }, .ok [0, 2]) := by
  have s1 : formatLoop gtSimple evW linesC1 0 [] ⟨[], []⟩ =
      formatLoop gtSimple evW linesC1 3 [0, 2] ⟨[], [(['T'], 0)]⟩ := by
    rw [formatLoop_if_ok gtSimple evW linesC1 0 [] ⟨[], []⟩ _ ⟨tokIf, ['T'], 0, 8⟩ 2 [0, 2]
      (by decide) (by decide) (by decide) runC1_parse]
    rfl
  have s2 : formatLoop gtSimple evW linesC1 3 [0, 2] ⟨[], [(['T'], 0)]⟩ =
      ({ warns := [], evals := [(['T'], 0)] }, .ok [0, 2]) := by
    rw [formatLoop_end gtSimple evW linesC1 3 [0, 2] ⟨[], [(['T'], 0)]⟩ (by decide)]
  exact s1.trans s2

theorem runC1_format : format gtSimple evW false dataC1 =
    ({ warns := [], evals := [(['T'], 0)] }, .ok ("/////#if T\na\n/////#endif".toList)) := by
  have hsp : splitNl dataC1 = linesC1 := by decide
  simp only [format, hsp, runC1_loop]
  decide

theorem runC3 : parseIf gtSimple evW linesC3 0 false ⟨[], []⟩ =
    ({ warns := [], evals := [(['T'], 0), (['X'], 1)] },
      .err { message := ['R', 'e', 'f'], line := some 1,
             location := some { line := 2, lineText := "///#elseif X".toList,
                                column := some 0, length := some 12 } }) := by
  have s1 : parseLoop gtSimple evW linesC3 0 false 0 false false [] ⟨[], []⟩ =
      parseLoop gtSimple evW linesC3 0 false 1 false true [0] ⟨[], [(['T'], 0)]⟩ := by
    rw [parseLoop_ifStart_ok gtSimple evW linesC3 false 0 false false [] ⟨[], []⟩
      ⟨tokIf, ['T'], 0, 8⟩ true (by decide) (by decide) (by decide) (by decide)]
    rfl
  have s2 : parseLoop gtSimple evW linesC3 0 false 1 false true [0] ⟨[], [(['T'], 0)]⟩ =
      ({ warns := [], evals := [(['T'], 0), (['X'], 1)] },
        .err { message := ['R', 'e', 'f'], line := some 1, location := none }) := by
    rw [parseLoop_elseif_err gtSimple evW linesC3 0 false 1 false true [0] ⟨[], [(['T'], 0)]⟩
      ⟨tokElseif, ['X'], 0, 12⟩ ⟨['R', 'e', 'f'], some 1, none⟩ (by decide) (by decide)
      (by decide) (by decide) (by decide)]
    decide
  have hfin := parseIf_err_of_loop gtSimple evW linesC3 0 false ⟨[], []⟩ _ _ (s1.trans s2)
  rw [hfin]
  decide

theorem runC4 : parseIf gtSimple evW linesC4 0 false ⟨[], []⟩ =
    ({ warns := [], evals := [(['F'], 0), (['X'], 1)] },
      .err { message := ['R', 'e', 'f'], line := some 1,
             location := some { line := 2, lineText := "///#if X".toList,
                                column := some 0, length := some 8 } }) := by
  have s1 : parseLoop gtSimple evW linesC4 0 false 0 false false [] ⟨[], []⟩ =
      parseLoop gtSimple evW linesC4 0 false 1 true false [0] ⟨[], [(['F'], 0)]⟩ := by
    rw [parseLoop_ifStart_ok gtSimple evW linesC4 false 0 false false [] ⟨[], []⟩
      ⟨tokIf, ['F'], 0, 8⟩ false (by decide) (by decide) (by decide) (by decide)]
    rfl
  have sInner : parseLoop gtSimple evW linesC4 1 (true || false) 1 false false []
      ⟨[], [(['F'], 0)]⟩ =
      ({ warns := [], evals := [(['F'], 0), (['X'], 1)] },
        .err { message := ['R', 'e', 'f'], line := some 1, location := none }) := by
    rw [parseLoop_ifStart_err gtSimple evW linesC4 (true || false) 1 false false []
      ⟨[], [(['F'], 0)]⟩ ⟨tokIf, ['X'], 0, 8⟩ ⟨['R', 'e', 'f'], some 1, none⟩
      (by decide) (by decide) (by decide) (by decide)]
    decide
  have hInner := parseIf_err_of_loop gtSimple evW linesC4 1 (true || false)
    ⟨[], [(['F'], 0)]⟩ _ _ sInner
  have s2 : parseLoop gtSimple evW linesC4 0 false 1 true false [0] ⟨[], [(['F'], 0)]⟩ =
      ({ warns := [], evals := [(['F'], 0), (['X'], 1)] },
        .err (enrich gtSimple linesC4 1 ⟨['R', 'e', 'f'], some 1, none⟩)) := by
    rw [parseLoop_ifNested_err gtSimple evW linesC4 0 false 1 true false [0]
      ⟨[], [(['F'], 0)]⟩ _ ⟨tokIf, ['X'], 0, 8⟩ _ (by decide) (by decide) (by decide)
      (by decide) hInner]
  have hfin := parseIf_err_of_loop gtSimple evW linesC4 0 false ⟨[], []⟩ _ _ (s1.trans s2)
  rw [hfin]
  decide

theorem runC5 : parseIf gtSimple evW linesC5 0 false ⟨[], []⟩ =
    ({ warns := [], evals := [(['T'], 0), (['T'], 1)] },
      .err { message := untermMsg 1, line := none,
             location := some { line := 1, lineText := "///#if T".toList,
                                column := some 0, length := some 8 } }) := by
  have s1 : parseLoop gtSimple evW linesC5 0 false 0 false false [] ⟨[], []⟩ =
      parseLoop gtSimple evW linesC5 0 false 1 false true [0] ⟨[], [(['T'], 0)]⟩ := by
    rw [parseLoop_ifStart_ok gtSimple evW linesC5 false 0 false false [] ⟨[], []⟩
      ⟨tokIf, ['T'], 0, 8⟩ true (by decide) (by decide) (by decide) (by decide)]
    rfl
  have t1 : parseLoop gtSimple evW linesC5 1 (false || false) 1 false false []
      ⟨[], [(['T'], 0)]⟩ =
      parseLoop gtSimple evW linesC5 1 (false || false) 2 false true [1]
        ⟨[], [(['T'], 0), (['T'], 1)]⟩ := by
    rw [parseLoop_ifStart_ok gtSimple evW linesC5 (false || false) 1 false false []
      ⟨[], [(['T'], 0)]⟩ ⟨tokIf, ['T'], 0, 8⟩ true (by decide) (by decide) (by decide)
      (by decide)]
    rfl
  have t2 : parseLoop gtSimple evW linesC5 1 (false || false) 2 false true [1]
      ⟨[], [(['T'], 0), (['T'], 1)]⟩ =
      parseLoop gtSimple evW linesC5 1 (false || false) 3 false true [1]
        ⟨[], [(['T'], 0), (['T'], 1)]⟩ := by
    rw [parseLoop_noToken gtSimple evW linesC5 1 (false || false) 2 false true [1]
      ⟨[], [(['T'], 0), (['T'], 1)]⟩ (by decide) (by decide)]
    rfl
  have t3 : parseLoop gtSimple evW linesC5 1 (false || false) 3 false true [1]
      ⟨[], [(['T'], 0), (['T'], 1)]⟩ =
      (⟨[], [(['T'], 0), (['T'], 1)]⟩,
        .err { message := untermMsg 1, line := none, location := none }) := by
    rw [parseLoop_unterm gtSimple evW linesC5 1 (false || false) 3 false true [1]
      ⟨[], [(['T'], 0), (['T'], 1)]⟩ (by decide)]
  have hInner := parseIf_err_of_loop gtSimple evW linesC5 1 (false || false)
    ⟨[], [(['T'], 0)]⟩ _ _ ((t1.trans t2).trans t3)
  have s2 : parseLoop gtSimple evW linesC5 0 false 1 false true [0] ⟨[], [(['T'], 0)]⟩ =
      (⟨[], [(['T'], 0), (['T'], 1)]⟩,
        .err (enrich gtSimple linesC5 1 ⟨untermMsg 1, none, none⟩)) := by
    rw [parseLoop_ifNested_err gtSimple evW linesC5 0 false 1 false true [0]
      ⟨[], [(['T'], 0)]⟩ _ ⟨tokIf, ['T'], 0, 8⟩ _ (by decide) (by decide) (by decide)
      (by decide) hInner]
  have hfin := parseIf_err_of_loop gtSimple evW linesC5 0 false ⟨[], []⟩ _ _ (s1.trans s2)
  rw [hfin]
  decide

theorem runC6_parse : parseIf gtSimple evW ["///#if X".toList] 0 false ⟨[], []⟩ =
    ({ warns := [], evals := [(['X'], 0)] },
      .err { message := ['R', 'e', 'f'], line := some 0,
             location := some { line := 1, lineText := "///#if X".toList,
                                column := some 0, length := some 8 } }) := by
  have s1 : parseLoop gtSimple evW ["///#if X".toList] 0 false 0 false false [] ⟨[], []⟩ =
      ({ warns := [], evals := [(['X'], 0)] },
        .err { message := ['R', 'e', 'f'], line := some 0, location := none }) := by
    rw [parseLoop_ifStart_err gtSimple evW ["///#if X".toList] false 0 false false [] ⟨[], []⟩
      ⟨tokIf, ['X'], 0, 8⟩ ⟨['R', 'e', 'f'], some 0, none⟩ (by decide) (by decide) (by decide)
      (by decide)]
    decide
  have hfin := parseIf_err_of_loop gtSimple evW ["///#if X".toList] 0 false ⟨[], []⟩ _ _ s1
  rw [hfin]
  decide

theorem runC6_format : format gtSimple evW false dataC6 =
    ({ warns := [], evals := [(['X'], 0)] },
      .error { message := ['R', 'e', 'f'], line := some 0,
               location := some { line := 1, lineText := "///#if X".toList,
                                  column := some 0, length := some 8 } }) := by
  have hsp : splitNl dataC6 = ["///#if X".toList] := by decide
  have hFL : formatLoop gtSimple evW ["///#if X".toList] 0 [] ⟨[], []⟩ =
      ({ warns := [], evals := [(['X'], 0)] },
        .error { message := ['R', 'e', 'f'], line := some 0,
                 location := some { line := 1, lineText := "///#if X".toList,
                                    column := some 0, length := some 8 } }) := by
    rw [formatLoop_if_err gtSimple evW ["///#if X".toList] 0 [] ⟨[], []⟩ _
      ⟨tokIf, ['X'], 0, 8⟩ _ (by decide) (by decide) (by decide) runC6_parse]
  simp only [format, hsp, hFL]

theorem runC7_parse : parseIf gtSimple evW linesC7 0 false ⟨[], []⟩ =
    ({ warns := [], evals := [(['T'], 0)] },
      .err { message := "boom".toList, line := some 1,
             location := some { line := 2, lineText := "///#error boom".toList,
                                column := some 0, length := some 14 } }) := by
  have s1 : parseLoop gtSimple evW linesC7 0 false 0 false false [] ⟨[], []⟩ =
      parseLoop gtSimple evW linesC7 0 false 1 false true [0] ⟨[], [(['T'], 0)]⟩ := by
    rw [parseLoop_ifStart_ok gtSimple evW linesC7 false 0 false false [] ⟨[], []⟩
      ⟨tokIf, ['T'], 0, 8⟩ true (by decide) (by decide) (by decide) (by decide)]
    rfl
  have s2 : parseLoop gtSimple evW linesC7 0 false 1 false true [0] ⟨[], [(['T'], 0)]⟩ =
      ({ warns := [], evals := [(['T'], 0)] },
        .err { message := "boom".toList, line := some 1, location := none }) := by
    rw [parseLoop_error_active gtSimple evW linesC7 0 false 1 true [0] ⟨[], [(['T'], 0)]⟩
      ⟨tokError, "boom".toList, 0, 14⟩ (by decide) (by decide) (by decide) rfl]
  have hfin := parseIf_err_of_loop gtSimple evW linesC7 0 false ⟨[], []⟩ _ _ (s1.trans s2)
  rw [hfin]
  decide

theorem runC7_format : format gtSimple evW false dataC7 =
    ({ warns := [], evals := [(['T'], 0)] },
      .error { message := "boom".toList, line := some 1,
               location := some { line := 2, lineText := "///#error boom".toList,
                                  column := some 0, length := some 14 } }) := by
  have hsp : splitNl dataC7 = linesC7 := by decide
  have hFL : formatLoop gtSimple evW linesC7 0 [] ⟨[], []⟩ =
      ({ warns := [], evals := [(['T'], 0)] },
        .error { message := "boom".toList, line := some 1,
                 location := some { line := 2, lineText := "///#error boom".toList,
                                    column := some 0, length := some 14 } }) := by
    rw [formatLoop_if_err gtSimple evW linesC7 0 [] ⟨[], []⟩ _
      ⟨tokIf, ['T'], 0, 8⟩ _ (by decide) (by decide) (by decide) runC7_parse]
  simp only [format, hsp, hFL]

theorem runC9 : format gtSimple evW false dataC9 = (⟨[], []⟩, .ok dataC9) := by
  have hsp : splitNl dataC9 = [dataC9] := by decide
  have hFL : formatLoop gtSimple evW [dataC9] 0 [] ⟨[], []⟩ = (⟨[], []⟩, .ok []) := by
    have t1 : formatLoop gtSimple evW [dataC9] 0 [] ⟨[], []⟩ =
        formatLoop gtSimple evW [dataC9] 1 [] ⟨[], []⟩ := by
      rw [formatLoop_notIf gtSimple evW [dataC9] 0 [] ⟨[], []⟩
        ⟨tokWarning, "hi".toList, 0, 14⟩ (by decide) (by decide) (by decide)]
    have t2 : formatLoop gtSimple evW [dataC9] 1 [] ⟨[], []⟩ = (⟨[], []⟩, .ok []) := by
      rw [formatLoop_end gtSimple evW [dataC9] 1 [] ⟨[], []⟩ (by decide)]
    exact t1.trans t2
  simp only [format, hsp, hFL]
  decide

theorem runC4_ignored : parseIf gtSimple evW linesC1 0 true ⟨[], []⟩ =
    ({ warns := [], evals := [(['T'], 0)] }, .ok 2 [0, 0, 1, 2, 2]) := by
  have s1 : parseLoop gtSimple evW linesC1 0 true 0 false false [] ⟨[], []⟩ =
      parseLoop gtSimple evW linesC1 0 true 1 false true [0, 0] ⟨[], [(['T'], 0)]⟩ := by
    rw [parseLoop_ifStart_ok gtSimple evW linesC1 true 0 false false [] ⟨[], []⟩
      ⟨tokIf, ['T'], 0, 8⟩ true (by decide) (by decide) (by decide) (by decide)]
    rfl
  have s2 : parseLoop gtSimple evW linesC1 0 true 1 false true [0, 0] ⟨[], [(['T'], 0)]⟩ =
      parseLoop gtSimple evW linesC1 0 true 2 false true [0, 0, 1] ⟨[], [(['T'], 0)]⟩ := by
    rw [parseLoop_noToken gtSimple evW linesC1 0 true 1 false true [0, 0] ⟨[], [(['T'], 0)]⟩
      (by decide) (by decide)]
    rfl
  have s3 : parseLoop gtSimple evW linesC1 0 true 2 false true [0, 0, 1] ⟨[], [(['T'], 0)]⟩ =
      ({ warns := [], evals := [(['T'], 0)] }, .ok 2 [0, 0, 1, 2, 2]) := by
    rw [parseLoop_endif gtSimple evW linesC1 0 true 2 false true [0, 0, 1] ⟨[], [(['T'], 0)]⟩
      ⟨tokEndif, [], 0, 9⟩ (by decide) (by decide) (by decide)]
    decide
  exact parseIf_ok_of_loop gtSimple evW linesC1 0 true ⟨[], []⟩ _ 2 [0, 0, 1, 2, 2]
    ((s1.trans s2).trans s3)

def linesC3b : List JStr := ["///#if T".toList, "///#elseif T".toList, "///#endif".toList]

def linesW : List JStr := ["///#warning hi".toList]

def linesE : List JStr := ["///#error boom".toList]

/-- C3 counterexample: in the chain `if T / elseif X / endif` where `T`
evaluates true (so `done` is set at line 0), the elseif's expression `X` at
line 1 IS passed to the evaluator — it appears in the ghost eval log, and
its evaluation failure aborts processing — contradicting the claim that
after `done` no later elseif expression is ever evaluated. -/
theorem c3_counterexample :
    evW ['T'] = .ok true ∧
    gtSimple (jsAt linesC3 1) = some ⟨tokElseif, ['X'], 0, 12⟩ ∧
    parseIf gtSimple evW linesC3 0 false ⟨[], []⟩ =
      ({ warns := [], evals := [(['T'], 0), (['X'], 1)] },
        .err { message := ['R', 'e', 'f'], line := some 1,
               location := some { line := 2, lineText := "///#elseif X".toList,
                                  column := some 0, length := some 12 } }) :=
  ⟨by decide, by decide, runC3⟩

/-- C3 witness: the amended theorem applied at concrete states — a skipped
elseif under `done ∧ prune` leaves the eval log untouched, and the elseif
right after the matched branch is evaluated with its result discarded. -/
theorem c3_witness :
    (parseLoop gtSimple evW linesC3 0 false 1 true true [0] ⟨[], []⟩ =
      parseLoop gtSimple evW linesC3 0 false 2 true true [0, 1, 1] ⟨[], []⟩) ∧
    (parseLoop gtSimple evW linesC3b 0 false 1 false true [0] ⟨[], []⟩ =
      parseLoop gtSimple evW linesC3b 0 false 2 true true [0, 1]
        ⟨[], [(['T'], 1)]⟩) := by
  constructor
  · have := (c3_elseif_after_done gtSimple evW linesC3 0 false 1 true true [0] ⟨[], []⟩
      ⟨tokElseif, ['X'], 0, 12⟩).1 (by decide) (by decide) (by decide) rfl rfl
    simpa using this
  · have := (c3_elseif_after_done gtSimple evW linesC3b 0 false 1 false true [0] ⟨[], []⟩
      ⟨tokElseif, ['T'], 0, 12⟩).2 (by decide) true (by decide) (by decide) rfl rfl rfl
      (by decide)
    simpa using this

/-- C4 counterexample: in `if F / if X / endif / endif` the outer branch is
inactive (`F` false), yet the nested block's opening expression `X` is
passed to the evaluator (logged, and its failure aborts processing) —
contradicting the claim that it is never evaluated. -/
theorem c4_counterexample :
    evW ['F'] = .ok false ∧
    gtSimple (jsAt linesC4 1) = some ⟨tokIf, ['X'], 0, 8⟩ ∧
    parseIf gtSimple evW linesC4 0 false ⟨[], []⟩ =
      ({ warns := [], evals := [(['F'], 0), (['X'], 1)] },
        .err { message := ['R', 'e', 'f'], line := some 1,
               location := some { line := 2, lineText := "///#if X".toList,
                                  column := some 0, length := some 8 } }) :=
  ⟨by decide, by decide, runC4⟩

/-- C4 witness: the amended theorem applied to a concrete ignored frame —
the frame parses to its endif with every line suppressed, and the opening
if expression is evaluated (logged) even with `ignore = true`. -/
theorem c4_witness :
    (parseIf gtSimple evW linesC1 0 true ⟨[], []⟩ =
      ({ warns := [], evals := [(['T'], 0)] }, .ok 2 [0, 0, 1, 2, 2])) ∧
    (1 : Nat) ∈ ([0, 0, 1, 2, 2] : List Nat) ∧
    (∃ td, gtSimple (jsAt linesC1 2) = some td ∧ td.token = tokEndif) ∧
    (parseLoop gtSimple evW linesC1 0 true 0 false false [] ⟨[], []⟩ =
      parseLoop gtSimple evW linesC1 0 true 1 false true [0, 0] ⟨[], [(['T'], 0)]⟩) := by
  have h1 := (c4_ignored_nested gtSimple evW linesC1 0 ⟨[], []⟩).1
    ({ warns := [], evals := [(['T'], 0)] }) 2 [0, 0, 1, 2, 2] runC4_ignored
  refine ⟨runC4_ignored, h1.2.2.2 1 (by decide) (by decide), h1.2.2.1, ?_⟩
  have h2 := (c4_ignored_nested gtSimple evW linesC1 0 ⟨[], []⟩).2
    ⟨tokIf, ['T'], 0, 8⟩ true (by decide) (by decide) (by decide) (by decide)
    true false false []
  simpa using h2

/-- C5 counterexample: in `if T / if T / x` the INNER frame (opening 0-based
line 1, as recorded in the unterminated message) runs off the end of input,
but the reported location is line 1 (1-based) — the OUTER frame's opening
line — not line 2 as the claim requires. -/
theorem c5_counterexample :
    (parseIf gtSimple evW linesC5 0 false ⟨[], []⟩).2 =
      .err { message := untermMsg 1, line := none,
             location := some { line := 1, lineText := "///#if T".toList,
                                column := some 0, length := some 8 } } := by
  rw [runC5]

/-- C5 witness: the amended theorem applied at concrete inputs — the
unterminated error production at end of input, and the location rule for a
line-less error escaping a concrete `parseIf`. -/
theorem c5_witness :
    (parseLoop gtSimple evW linesC5 1 false 3 false true [1] ⟨[], []⟩ =
      (⟨[], []⟩, .err { message := untermMsg 1, line := none, location := none })) ∧
    Err.location { message := untermMsg 1, line := none,
                   location := some { line := 1, lineText := "///#if T".toList,
                                      column := some 0, length := some 8 } } =
      some { line := 0 + 1, lineText := jsAt linesC5 0,
             column := (gtSimple (jsAt linesC5 0)).map TokenData.column,
             length := (gtSimple (jsAt linesC5 0)).map TokenData.length } := by
  constructor
  · exact (c5_unterminated gtSimple evW linesC5 1 false ⟨[], []⟩).1 3 false true [1] (by decide)
  · exact (c5_unterminated gtSimple evW linesC5 0 false ⟨[], []⟩).2 _ _ runC5 rfl

/-- C1 witness: the theorem applied to a concrete successful `format` run —
the rendered output has the same line count as the input. -/
theorem c1_witness :
    format gtSimple evW false dataC1 =
      ({ warns := [], evals := [(['T'], 0)] }, .ok ("/////#if T\na\n/////#endif".toList)) ∧
    (splitNl ("/////#if T\na\n/////#endif".toList)).length = (splitNl dataC1).length :=
  ⟨runC1_format, c1_line_count gtSimple evW false dataC1 _ _ runC1_format⟩

/-- C2 witness: the theorem applied to a concrete run — line 0 and line 2
are suppressed (comment-prefixed, `fillWithSpaces` disabled) and line 1
survives verbatim. -/
theorem c2_witness :
    formatLoop gtSimple evW (splitNl dataC1) 0 [] ⟨[], []⟩ =
      ({ warns := [], evals := [(['T'], 0)] }, .ok [0, 2]) ∧
    (∃ out, format gtSimple evW false dataC1 =
        ({ warns := [], evals := [(['T'], 0)] }, .ok out) ∧
      ∀ i, i < (splitNl dataC1).length →
        (splitNl out).getD i [] =
          if ([0, 2] : List Nat).contains i then
            (if (false : Bool) then List.replicate ((splitNl dataC1).getD i []).length ' '
             else '/' :: '/' :: (splitNl dataC1).getD i [])
          else (splitNl dataC1).getD i []) := by
  have hF : formatLoop gtSimple evW (splitNl dataC1) 0 [] ⟨[], []⟩ =
      ({ warns := [], evals := [(['T'], 0)] }, .ok [0, 2]) := by
    rw [show splitNl dataC1 = linesC1 from by decide]
    exact runC1_loop
  exact ⟨hF, c2_rendering gtSimple evW false dataC1 _ [0, 2] hF⟩

def linesC6q : List JStr := ["///#if T".toList, "///#elseif Q".toList, "///#endif".toList]

theorem runC6q : parseIf gtSimple evW linesC6q 0 false ⟨[], []⟩ =
    ({ warns := [], evals := [(['T'], 0), (['Q'], 1)] },
      .err { message := ['C', 'o', 'n'], line := none,
             location := some { line := 1, lineText := "///#if T".toList,
                                column := some 0, length := some 8 } }) := by
  have s1 : parseLoop gtSimple evW linesC6q 0 false 0 false false [] ⟨[], []⟩ =
      parseLoop gtSimple evW linesC6q 0 false 1 false true [0] ⟨[], [(['T'], 0)]⟩ := by
    rw [parseLoop_ifStart_ok gtSimple evW linesC6q false 0 false false [] ⟨[], []⟩
      ⟨tokIf, ['T'], 0, 8⟩ true (by decide) (by decide) (by decide) (by decide)]
    rfl
  have s2 : parseLoop gtSimple evW linesC6q 0 false 1 false true [0] ⟨[], [(['T'], 0)]⟩ =
      ({ warns := [], evals := [(['T'], 0), (['Q'], 1)] },
        .err { message := ['C', 'o', 'n'], line := none, location := none }) := by
    rw [parseLoop_elseif_err gtSimple evW linesC6q 0 false 1 false true [0] ⟨[], [(['T'], 0)]⟩
      ⟨tokElseif, ['Q'], 0, 12⟩ ⟨['C', 'o', 'n'], none, none⟩ (by decide) (by decide)
      (by decide) (by decide) (by decide)]
    decide
  have hfin := parseIf_err_of_loop gtSimple evW linesC6q 0 false ⟨[], []⟩ _ _ (s1.trans s2)
  rw [hfin]
  decide

/-- C6 witness: the amended theorem applied at concrete inputs — run-time
and construction-time evaluation failures, error production at an `if` and
at an `elseif`, and the location rules for an escaping error with and
without a `line`. -/
theorem c6_witness :
    evalExpression evW ['X'] 5 =
      .error { message := ['R', 'e', 'f'], line := some 5, location := none } ∧
    evalExpression evW ['Q'] 5 =
      .error { message := ['C', 'o', 'n'], line := none, location := none } ∧
    (parseLoop gtSimple evW ["///#if X".toList] 0 false 0 false false [] ⟨[], []⟩ =
      ({ warns := [], evals := [(['X'], 0)] },
        .err { message := ['R', 'e', 'f'], line := some 0, location := none })) ∧
    (parseLoop gtSimple evW linesC3 0 false 1 false true [0] ⟨[], [(['T'], 0)]⟩ =
      ({ warns := [], evals := [(['T'], 0), (['X'], 1)] },
        .err { message := ['R', 'e', 'f'], line := some 1, location := none })) ∧
    Err.location { message := ['R', 'e', 'f'], line := some 0,
                   location := some { line := 1, lineText := "///#if X".toList,
                                      column := some 0, length := some 8 } } =
      some { line := 0 + 1, lineText := jsAt (splitNl dataC6) 0,
             column := (gtSimple (jsAt (splitNl dataC6) 0)).map TokenData.column,
             length := (gtSimple (jsAt (splitNl dataC6) 0)).map TokenData.length } ∧
    Err.location { message := ['C', 'o', 'n'], line := none,
                   location := some { line := 1, lineText := "///#if T".toList,
                                      column := some 0, length := some 8 } } =
      some { line := 0 + 1, lineText := jsAt linesC6q 0,
             column := (gtSimple (jsAt linesC6q 0)).map TokenData.column,
             length := (gtSimple (jsAt linesC6q 0)).map TokenData.length } := by
  refine ⟨?_, ?_, ?_, ?_, ?_, ?_⟩
  · exact (c6_expression_error gtSimple evW []).1 evW ['X'] 5 ['R', 'e', 'f'] (by decide)
  · exact (c6_expression_error gtSimple evW []).2.1 evW ['Q'] 5 ['C', 'o', 'n'] (by decide)
  · have := (c6_expression_error gtSimple evW ["///#if X".toList]).2.2.1 0 false false false []
      ⟨[], []⟩ ⟨tokIf, ['X'], 0, 8⟩ ⟨['R', 'e', 'f'], some 0, none⟩ (by decide) (by decide)
      (by decide) (by decide)
    simpa using this
  · have := (c6_expression_error gtSimple evW linesC3).2.2.2.1 0 false 1 false true [0]
      ⟨[], [(['T'], 0)]⟩ ⟨tokElseif, ['X'], 0, 12⟩ ⟨['R', 'e', 'f'], some 1, none⟩ (by decide)
      (by decide) (by decide) (by decide) (by decide)
    simpa using this
  · exact (c6_expression_error gtSimple evW []).2.2.2.2.1 false dataC6 _ _ 0 runC6_format rfl
  · exact (c6_expression_error gtSimple evW linesC6q).2.2.2.2.2 0 false ⟨[], []⟩ _ _ runC6q rfl

/-- C7 witness: the theorem applied at concrete inputs — the error thrown at
an active `error` directive, its enrichment by `parseIf`, its location when
escaping `format`, and `onLoad` returning no contents. -/
theorem c7_witness :
    (parseLoop gtSimple evW linesC7 0 false 1 false true [0] ⟨[], [(['T'], 0)]⟩ =
      ({ warns := [], evals := [(['T'], 0)] },
        .err { message := "boom".toList, line := some 1, location := none })) ∧
    (parseIf gtSimple evW linesE 0 false ⟨[], []⟩ =
      (⟨[], []⟩, .err (enrich gtSimple linesE 0
        { message := "boom".toList, line := some 0, location := none }))) ∧
    Err.location { message := "boom".toList, line := some 1,
                   location := some { line := 2, lineText := "///#error boom".toList,
                                      column := some 0, length := some 14 } } =
      some { line := 1 + 1, lineText := jsAt (splitNl dataC7) 1,
             column := (gtSimple (jsAt (splitNl dataC7) 1)).map TokenData.column,
             length := (gtSimple (jsAt (splitNl dataC7) 1)).map TokenData.length } ∧
    onLoad gtSimple evW false dataC7 =
      .ok { contents := none, warnings := [],
            errors := [{ message := "boom".toList, line := some 1,
                         location := some { line := 2, lineText := "///#error boom".toList,
                                            column := some 0, length := some 14 } }] } := by
  refine ⟨?_, ?_, ?_, ?_⟩
  · have := (c7_error_directive gtSimple evW linesC7).1 0 false 1 true [0] ⟨[], [(['T'], 0)]⟩
      ⟨tokError, "boom".toList, 0, 14⟩ (by decide) (by decide) (by decide) rfl
    simpa using this
  · have hq : parseLoop gtSimple evW linesE 0 false 0 false false [] ⟨[], []⟩ =
        (⟨[], []⟩, .err { message := "boom".toList, line := some 0, location := none }) := by
      have := (c7_error_directive gtSimple evW linesE).1 0 false 0 false [] ⟨[], []⟩
        ⟨tokError, "boom".toList, 0, 14⟩ (by decide) (by decide) (by decide) rfl
      simpa using this
    exact ((c7_error_directive gtSimple evW linesE).2.1 0 false ⟨[], []⟩ ⟨[], []⟩ _ hq).1
  · exact (c7_error_directive gtSimple evW []).2.2.1 false dataC7 _ _ 1 runC7_format rfl
  · exact (c7_error_directive gtSimple evW []).2.2.2 false dataC7 _ _ _ runC7_format rfl

/-- C8 witness: the theorem applied at concrete states — an active warning
appends exactly one diagnostic, and both inactive forms append none. -/
theorem c8_witness :
    (parseLoop gtSimple evW linesW 3 false 0 false false [] ⟨[], []⟩ =
      parseLoop gtSimple evW linesW 3 false 1 false false [0]
        { warns := [{ text := "hi".toList, line := 1, lineText := "///#warning hi".toList,
                      column := 0, length := 14 }], evals := [] }) ∧
    (parseLoop gtSimple evW linesW 3 false 0 true false [] ⟨[], []⟩ =
      parseLoop gtSimple evW linesW 3 false 1 true false [0, 0] ⟨[], []⟩) ∧
    (parseLoop gtSimple evW linesW 3 true 0 false false [] ⟨[], []⟩ =
      parseLoop gtSimple evW linesW 3 true 1 false false [0, 0] ⟨[], []⟩) := by
  refine ⟨?_, ?_, ?_⟩
  · have := (c8_warning_directive gtSimple evW linesW).1 3 false 0 false [] ⟨[], []⟩
      ⟨tokWarning, "hi".toList, 0, 14⟩ (by decide) (by decide) (by decide) rfl
    simpa using this
  · have := (c8_warning_directive gtSimple evW linesW).2.1 3 false 0 [] ⟨[], []⟩
      ⟨tokWarning, "hi".toList, 0, 14⟩ (by decide) (by decide) (by decide) rfl
    simpa using this
  · have := (c8_warning_directive gtSimple evW linesW).2.2 3 true 0 false false [] ⟨[], []⟩
      ⟨tokWarning, "hi".toList, 0, 14⟩ (by decide) (by decide) (by decide) (by decide)
    simpa using this

/-- C9 counterexample: a lone `///#warning hi` line is recognized by the
matcher, yet `format` leaves it untouched (empty suppression set, output
equal to input) — a directive comment line surviving unmodified, because the
top-level scan only enters frames at `if` tokens. -/
theorem c9_counterexample :
    gtSimple dataC9 = some ⟨tokWarning, "hi".toList, 0, 14⟩ ∧
    format gtSimple evW false dataC9 = (⟨[], []⟩, .ok dataC9) :=
  ⟨by decide, runC9⟩

/-- C9 witness: the amended theorem applied to a concrete frame — the
`endif` directive line of a parsed frame is in the suppression set. -/
theorem c9_witness :
    parseIf gtSimple evW linesC1 0 false ⟨[], []⟩ =
      ({ warns := [], evals := [(['T'], 0)] }, .ok 2 [0, 2]) ∧
    (2 : Nat) ∈ ([0, 2] : List Nat) :=
  ⟨runC1_parse,
    c9_frame_directives_suppressed gtSimple evW linesC1 0 false ⟨[], []⟩ _ 2 [0, 2]
      runC1_parse 2 (by decide) (by decide) (by decide)⟩

/-- C10 witness: the theorem applied at a concrete pruned state — the
`error` directive does not abort and is simply suppressed. -/
theorem c10_witness :
    parseLoop gtSimple evW linesE 3 false 0 true false [] ⟨[], []⟩ =
      parseLoop gtSimple evW linesE 3 false 1 true false [0, 0] ⟨[], []⟩ := by
  have := c10_error_inactive gtSimple evW linesE 3 false 0 true false [] ⟨[], []⟩
    ⟨tokError, "boom".toList, 0, 14⟩ (by decide) (by decide) (by decide) (by decide)
  simpa using this

/-- C6 counterexample: in `if T / elseif Q / endif` where evaluating `Q`
fails at function construction (modelling an expression containing a double
quote, which breaks the string passed to `new Function` — thrown outside the
`try`, so no `line` is attached), processing fails but the reported location
is line 1 (the frame's opening `if`), not line 2 (the failing directive) as
the claim requires. -/
theorem c6_counterexample :
    gtSimple (jsAt linesC6q 1) = some ⟨tokElseif, ['Q'], 0, 12⟩ ∧
    evW ['Q'] = .conErr ['C', 'o', 'n'] ∧
    parseIf gtSimple evW linesC6q 0 false ⟨[], []⟩ =
      ({ warns := [], evals := [(['T'], 0), (['Q'], 1)] },
        .err { message := ['C', 'o', 'n'], line := none,
               location := some { line := 1, lineText := "///#if T".toList,
                                  column := some 0, length := some 8 } }) :=
  ⟨by decide, by decide, runC6q⟩
